import Mathlib

/-!
# notif: retry / logging decorators and the Slack backend

A shallow embedding of `github.com/cph-dev/notif`:

* `notifier.go`            : `Message`, `Priority`, the `Notifier` interface;
* `decorator/retry.go`     : `RetryNotifier.Send` (bounded retry, exponential backoff);
* `decorator/logging.go`   : `LoggingNotifier.Send`;
* `slack.go`               : `buildSlackMessage`, `getColorForPriority`, `SlackNotifier.Send`.

Conventions of the embedding.

* Go `int` (taken to be 64 bits wide, as on amd64 and arm64), `int64` and `time.Duration`
  are modelled as `Int` restricted to the 64-bit two's-complement range; every arithmetic
  step of the source that can leave that range (`attempt++`, `delay *= 2`) is followed by
  `wrapInt64`, Go's wrap-around.
* A Go `error` is an `Option GoError`; `none` is `nil`.
* What the code cannot control (the wrapped notifier, the context, the clock, the HTTP
  client, the iteration order of a map) is an explicit oracle argument.  The outcome of the
  `i`-th call made to an interface value during one run is the oracle applied to `i`.
* Side effects are recorded in a trace of `Event`s, in program order.
* `RetryNotifier.Send` contains a loop that need not terminate, so it takes a fuel argument
  (an upper bound on the number of loop-condition evaluations) and returns `none` when the
  fuel runs out before the Go function returns.
-/

namespace Notif

/-! ## Machine integers -/

/-- Largest value of a 64-bit signed integer (`math.MaxInt64`). -/
def maxInt64 : Int := 9223372036854775807

/-- Smallest value of a 64-bit signed integer (`math.MinInt64`). -/
def minInt64 : Int := -9223372036854775808

/-- Go's wrap-around of a mathematical integer to the 64-bit two's-complement range. -/
def wrapInt64 (x : Int) : Int :=
  (x + 9223372036854775808) % 18446744073709551616 - 9223372036854775808

/-! ## Errors -/

/-- Go error values.  `external` is an error produced outside this repository, with the
identity of the value and the text its `Error()` method returns; `errorString` is what
`errors.New` and `fmt.Errorf` without a wrapped operand build; `wrapError` is what
`fmt.Errorf` builds around one `%w` operand. -/
inductive GoError where
  | external (ident : Nat) (text : String)
  | errorString (s : String)
  | wrapError (msg : String) (err : GoError)
  deriving DecidableEq, Repr

/-- The `Error()` method. -/
def GoError.Error : GoError → String
  | .external _ text => text
  | .errorString s => s
  | .wrapError msg _ => msg

/-- The `Unwrap()` method, as seen by `errors.Unwrap`. -/
def GoError.Unwrap : GoError → Option GoError
  | .external _ _ => none
  | .errorString _ => none
  | .wrapError _ err => some err

/-- The verb `%d` applied to a Go integer. -/
def fmtD (i : Int) : String := toString i

/-- Result of `fmt.Errorf(pre + "%w", err)` where `pre` is the already formatted text that
precedes the verb.  With a nil operand the verb prints `%!w(<nil>)` and nothing is
wrapped. -/
def errorfW (pre : String) (err : Option GoError) : GoError :=
  match err with
  | some e => .wrapError (pre ++ e.Error) e
  | none => .errorString (pre ++ "%!w(<nil>)")

/-! ## notifier.go -/

/-- A dynamic value stored in `Message.Extra` (`any`): the cases the `%v` verb is modelled
for, and `other` for any further value, carrying its `%v` rendering. -/
inductive GoValue where
  | str (s : String)
  | int (i : Int)
  | bool (b : Bool)
  | nil
  | other (rendered : String)
  deriving DecidableEq, Repr

/-- Result of `fmt.Sprintf("%v", v)`. -/
def sprintV : GoValue → String
  | .str s => s
  | .int i => fmtD i
  | .bool b => if b then "true" else "false"
  | .nil => "<nil>"
  | .other r => r

/-- Type `Priority` is a Go `int`. -/
abbrev Priority := Int

def PriorityLow : Priority := 0
def PriorityNormal : Priority := 1
def PriorityHigh : Priority := 2
def PriorityUrgent : Priority := 3

/-- Struct `Message`.  The map `Extra` is the list of its entries (keys pairwise distinct);
a nil map and an empty map are both `[]`. -/
structure Message where
  Title : String
  Content : String
  URI : String
  Priority : Priority
  Extra : List (String × GoValue)
  deriving DecidableEq, Repr

/-- A `context.Context` value, identified by `ident`. -/
structure Context where
  ident : Nat
  deriving DecidableEq, Repr

/-- A value of interface type `Notifier`, as one caller sees it during one run: `Send i ctx
msg` is what the call `Send(ctx, msg)` returns when `i` calls were made to it before. -/
structure Notifier where
  Name : String
  Send : Nat → Context → Message → Option GoError

/-- A `*log.Logger` value, identified by `ident`. -/
structure Logger where
  ident : Nat
  deriving DecidableEq, Repr

/-- Observable side effects, in program order: a call `Send(ctx, msg)` to the wrapped
notifier, entering the `select` with `time.After(delay)`, and a `Printf` on a logger (the
formatted text, before the logger adds its own prefix). -/
inductive Event where
  | send (ctx : Context) (msg : Message)
  | wait (delay : Int)
  | log (logger : Logger) (line : String)
  deriving DecidableEq, Repr

/-- Number of calls to the wrapped `Send` recorded in a trace. -/
def numSends : List Event → Nat
  | [] => 0
  | .send _ _ :: t => numSends t + 1
  | _ :: t => numSends t

/-- The delays of the waits recorded in a trace, in order. -/
def waits : List Event → List Int
  | [] => []
  | .wait d :: t => d :: waits t
  | _ :: t => waits t

/-! ## decorator/retry.go -/

/-- Struct `RetryNotifier`. -/
structure RetryNotifier where
  notifier : Notifier
  maxRetries : Int
  retryDelay : Int
  maxRetryDelay : Int

/-- Function `WithRetry`. -/
def WithRetry (notifier : Notifier) (maxRetries : Int) (retryDelay maxRetryDelay : Int) :
    RetryNotifier :=
  { notifier := notifier, maxRetries := maxRetries, retryDelay := retryDelay,
    maxRetryDelay := maxRetryDelay }

/-- The `select` of `RetryNotifier.Send`: `selectDone j d` is the outcome of the `j`-th
select executed during the run, entered with `time.After(d)`.  `some e` means the case
`<-ctx.Done()` was taken and `ctx.Err()` returned `e` (non-nil by the contract of
`context.Context`); `none` means the timer case was taken. -/
structure Runtime where
  selectDone : Nat → Int → Option GoError

/-- Local variables of `RetryNotifier.Send`, with the trace of effects so far. -/
structure RetryState where
  attempt : Int
  delay : Int
  lastErr : Option GoError
  trace : List Event

/-- What a run of a `Send` method returned and did. -/
structure Outcome where
  err : Option GoError
  trace : List Event
  deriving DecidableEq, Repr

/-- The backoff update (retry.go, lines 43-46): `delay *= 2` on a `time.Duration`, then
`if delay > r.maxRetryDelay { delay = r.maxRetryDelay }`. -/
def backoff (r : RetryNotifier) (delay : Int) : Int :=
  let doubled := wrapInt64 (delay * 2)
  if r.maxRetryDelay < doubled then r.maxRetryDelay else doubled

/-- The block guarded by `if attempt > 0` (retry.go, lines 35-47): the interruptible wait
followed by the backoff update of `delay`.  `Sum.inl` is the `return ctx.Err()`; `Sum.inr` is
the state in which the attempt is then made. -/
def waitStep (r : RetryNotifier) (rt : Runtime) (st : RetryState) : Outcome ⊕ RetryState :=
  if 0 < st.attempt then
    let tr := st.trace ++ [Event.wait st.delay]
    match rt.selectDone (waits st.trace).length st.delay with
    | some e => Sum.inl { err := some e, trace := tr }
    | none => Sum.inr { st with delay := backoff r st.delay, trace := tr }
  else
    Sum.inr st

/-- The `for` loop of `RetryNotifier.Send` followed by the final `return`, started at the
loop condition in state `st`. -/
def retryLoop (r : RetryNotifier) (rt : Runtime) (ctx : Context) (msg : Message) :
    Nat → RetryState → Option Outcome
  | 0, _ => none
  | fuel + 1, st =>
    if st.attempt ≤ r.maxRetries then
      match waitStep r rt st with
      | Sum.inl out => some out
      | Sum.inr st1 =>
        let tr := st1.trace ++ [Event.send ctx msg]
        match r.notifier.Send (numSends st1.trace) ctx msg with
        | none => some { err := none, trace := tr }
        | some err =>
          retryLoop r rt ctx msg fuel
            { attempt := wrapInt64 (st1.attempt + 1), delay := st1.delay, lastErr := some err,
              trace := tr }
    else
      some { err := some (errorfW ("failed after " ++ fmtD r.maxRetries ++ " retries: ")
                            st.lastErr),
             trace := st.trace }

/-- Method `RetryNotifier.Send`. -/
def RetryNotifier.Send (r : RetryNotifier) (rt : Runtime) (ctx : Context) (msg : Message)
    (fuel : Nat) : Option Outcome :=
  retryLoop r rt ctx msg fuel
    { attempt := 0, delay := r.retryDelay, lastErr := none, trace := [] }

/-- Method `RetryNotifier.Name`. -/
def RetryNotifier.Name (_r : RetryNotifier) : String := "Retry"

/-! ## decorator/logging.go -/

/-- Struct `LoggingNotifier`. -/
structure LoggingNotifier where
  notifier : Notifier
  logger : Logger

/-- The process-wide logger returned by `log.Default()`. -/
def defaultLogger : Logger := { ident := 0 }

/-- Function `WithLogging`; `none` is a nil `*log.Logger`. -/
def WithLogging (notifier : Notifier) (logger : Option Logger) : LoggingNotifier :=
  match logger with
  | none => { notifier := notifier, logger := defaultLogger }
  | some lg => { notifier := notifier, logger := lg }

/-- The clock as `LoggingNotifier.Send` sees it: `since` is the value of
`time.Since(start)`, `durationString` is the library method `Duration.String` that the verb
`%s` calls. -/
structure Clock where
  since : Int
  durationString : Int → String

/-- Method `LoggingNotifier.Send`, when `i` calls were made to the wrapped notifier before.
The verb `%v` applied to a non-nil error prints its `Error()` text. -/
def LoggingNotifier.Send (l : LoggingNotifier) (clk : Clock) (i : Nat) (ctx : Context)
    (msg : Message) : Outcome :=
  let before := Event.log l.logger
    ("Sending notification via " ++ l.notifier.Name ++ ": Title=" ++ msg.Title ++
      ", Priority=" ++ fmtD msg.Priority)
  let err := l.notifier.Send i ctx msg
  let duration := clk.durationString clk.since
  let after :=
    match err with
    | some e =>
      Event.log l.logger ("Notification failed: " ++ e.Error ++ " (duration: " ++ duration ++ ")")
    | none =>
      Event.log l.logger ("Notification sent successfully (duration: " ++ duration ++ ")")
  { err := err, trace := [before, Event.send ctx msg, after] }

/-- Method `LoggingNotifier.Name`. -/
def LoggingNotifier.Name (_l : LoggingNotifier) : String := "Logging"

/-! ## options.go, slack.go -/

/-- Struct `Config`; `Timeout` is a `time.Duration`. -/
structure Config where
  Timeout : Int
  deriving DecidableEq, Repr

/-- Struct `slackField`. -/
structure slackField where
  Title : String
  Value : String
  Short : Bool
  deriving DecidableEq, Repr

/-- Struct `slackAttachment`. -/
structure slackAttachment where
  Color : String
  Title : String
  TitleLink : String
  Text : String
  Footer : String
  Timestamp : Int
  Fields : List slackField
  deriving DecidableEq, Repr

/-- Struct `slackMessage`. -/
structure slackMessage where
  Attachments : List slackAttachment
  deriving DecidableEq, Repr

/-- An `*http.Client`: the field the repository sets. -/
structure HTTPClient where
  Timeout : Int
  deriving DecidableEq, Repr

/-- Struct `SlackNotifier`. -/
structure SlackNotifier where
  webhookURL : String
  client : HTTPClient
  config : Config
  deriving DecidableEq, Repr

/-- Method `SlackNotifier.getColorForPriority`: the `switch` on the priority. -/
def getColorForPriority (priority : Priority) : String :=
  if priority = PriorityLow then "#3AA3E3"
  else if priority = PriorityNormal then "#36a64f"
  else if priority = PriorityHigh then "#ff9900"
  else if priority = PriorityUrgent then "#ff0000"
  else "#3AA3E3"

/-- The order in which a `range` over a map visits its entries: unspecified by Go, but each
entry is visited exactly once. -/
structure MapRange where
  visit : List (String × GoValue) → List (String × GoValue)
  perm : ∀ entries, (visit entries).Perm entries

/-- Method `SlackNotifier.buildSlackMessage`; `now` is the value of `time.Now().Unix()`. -/
def buildSlackMessage (rg : MapRange) (now : Int) (msg : Message) : slackMessage :=
  let color := getColorForPriority msg.Priority
  let attachment : slackAttachment :=
    { Color := color, Title := msg.Title, TitleLink := msg.URI, Text := msg.Content,
      Footer := "", Timestamp := now, Fields := [] }
  let attachment := (rg.visit msg.Extra).foldl
    (fun (att : slackAttachment) (kv : String × GoValue) =>
      { att with Fields := att.Fields ++ [{ Title := kv.1, Value := sprintV kv.2, Short := true }] })
    attachment
  { Attachments := [attachment] }

/-- An `*http.Request` as `SlackNotifier.Send` builds it. -/
structure Request where
  ctx : Context
  method : String
  url : String
  body : String
  header : List (String × String)
  deriving DecidableEq, Repr

/-- An `*http.Response`: the field the repository reads. -/
structure Response where
  StatusCode : Int
  deriving DecidableEq, Repr

/-- The library calls of `SlackNotifier.Send`: `json.Marshal`, `http.NewRequestWithContext`
(given context, method, URL and body) and `client.Do`, each returning its value or its
non-nil error, with the clock and the map iteration order used by `buildSlackMessage`. -/
structure HTTPWorld where
  range : MapRange
  now : Int
  marshal : slackMessage → Except GoError String
  newRequest : Context → String → String → String → Except GoError Request
  Do : HTTPClient → Request → Except GoError Response

/-- Method `Header.Set`: the entries of the key are replaced by the one value. -/
def headerSet (header : List (String × String)) (key value : String) : List (String × String) :=
  header.filter (fun kv => kv.1 ≠ key) ++ [(key, value)]

/-- Constant `http.StatusOK`. -/
def StatusOK : Int := 200

/-- Method `SlackNotifier.Send`. -/
def SlackNotifier.Send (s : SlackNotifier) (w : HTTPWorld) (ctx : Context) (msg : Message) :
    Option GoError :=
  let slackMsg := buildSlackMessage w.range w.now msg
  match w.marshal slackMsg with
  | .error err => some (errorfW "failed to marshal slack message: " (some err))
  | .ok payload =>
    match w.newRequest ctx "POST" s.webhookURL payload with
    | .error err => some (errorfW "failed to create request: " (some err))
    | .ok req =>
      let req := { req with header := headerSet req.header "Content-Type" "application/json" }
      match w.Do s.client req with
      | .error err => some (errorfW "failed to send slack notification: " (some err))
      | .ok resp =>
        if resp.StatusCode ≠ StatusOK then
          some (GoError.errorString ("slack returned status code: " ++ fmtD resp.StatusCode))
        else
          none

/-- Method `SlackNotifier.Name`. -/
def SlackNotifier.Name (_s : SlackNotifier) : String := "Slack"

/-- Type `Option` of notifier.go, `func(*Config)`: a non-nil function that updates the
configuration it is given. -/
abbrev ConfigOption := Config → Config

/-- Function `WithTimeout` (options.go). -/
def WithTimeout (timeout : Int) : ConfigOption :=
  fun c => { c with Timeout := timeout }

/-- Function `NewSlackNotifier`: the options are applied in order to the default
configuration, `Timeout: 10 * time.Second`. -/
def NewSlackNotifier (webhookURL : String) (opts : List ConfigOption) : SlackNotifier :=
  let config : Config := { Timeout := 10 * 1000000000 }
  let config := opts.foldl (fun c opt => opt c) config
  { webhookURL := webhookURL, client := { Timeout := config.Timeout }, config := config }

/-! ## The JSON encoding of the payload -/

/-- A JSON value, as `json.Marshal` writes it: an object is the list of its members in the
order they are written. -/
inductive JSON where
  | str (s : String)
  | num (n : Int)
  | bool (b : Bool)
  | arr (items : List JSON)
  | obj (members : List (String × JSON))

/-- The members of a JSON object (none for the other values). -/
def JSON.members : JSON → List (String × JSON)
  | .obj ms => ms
  | _ => []

/-- The keys of a JSON object, in the order they are written. -/
def JSON.keys (j : JSON) : List String := j.members.map Prod.fst

/-- The items of a JSON array (none for the other values). -/
def JSON.items : JSON → List JSON
  | .arr xs => xs
  | _ => []

/-- Encoding of a `slackField` by its struct tags: `title`, `value`, `short`, none of them
`omitempty`. -/
def slackField.toJSON (f : slackField) : JSON :=
  JSON.obj [("title", JSON.str f.Title), ("value", JSON.str f.Value), ("short", JSON.bool f.Short)]

/-- Encoding of a `slackAttachment` by its struct tags `color`, `title`, `title_link`,
`text`, `footer`, `ts`, `fields`, all `omitempty`: a member is written unless its value is
the empty string, zero or a slice of length zero. -/
def slackAttachment.toJSON (a : slackAttachment) : JSON :=
  JSON.obj
    ((if a.Color = "" then [] else [("color", JSON.str a.Color)]) ++
     (if a.Title = "" then [] else [("title", JSON.str a.Title)]) ++
     (if a.TitleLink = "" then [] else [("title_link", JSON.str a.TitleLink)]) ++
     (if a.Text = "" then [] else [("text", JSON.str a.Text)]) ++
     (if a.Footer = "" then [] else [("footer", JSON.str a.Footer)]) ++
     (if a.Timestamp = 0 then [] else [("ts", JSON.num a.Timestamp)]) ++
     (if a.Fields.length = 0 then []
      else [("fields", JSON.arr (a.Fields.map slackField.toJSON))]))

/-- Encoding of a `slackMessage` by its struct tag `attachments,omitempty`: the value that
`json.Marshal(slackMsg)` serializes in `SlackNotifier.Send`. -/
def slackMessage.toJSON (m : slackMessage) : JSON :=
  JSON.obj
    (if m.Attachments.length = 0 then []
     else [("attachments", JSON.arr (m.Attachments.map slackAttachment.toJSON))])

/-- The keys that claim C13 allows in the object of an attachment. -/
def claimedAttachmentKeys : List String :=
  ["color", "title", "title_link", "text", "timestamp", "fields"]

/-- The keys that the struct tags of `slackAttachment` can produce for a payload of
`buildSlackMessage` (`footer` is never set). -/
def attachmentKeys : List String :=
  ["color", "title", "title_link", "text", "ts", "fields"]

/-! ## Description of a run of the retry loop -/

/-- Value of the variable `delay` after `j` backoff updates. -/
def delayAt (r : RetryNotifier) : Nat → Int
  | 0 => r.retryDelay
  | j + 1 => backoff r (delayAt r j)

/-- Trace of a run whose first `m` attempts were made and failed, with no wait cut short:
attempt 0, then for each later attempt the wait and the attempt. -/
def failTrace (r : RetryNotifier) (ctx : Context) (msg : Message) : Nat → List Event
  | 0 => []
  | 1 => [Event.send ctx msg]
  | m + 2 => failTrace r ctx msg (m + 1) ++ [Event.wait (delayAt r m), Event.send ctx msg]

/-- Value of the variable `lastErr` after `m` failed attempts. -/
def lastErrAfter (n : Notifier) (ctx : Context) (msg : Message) : Nat → Option GoError
  | 0 => none
  | m + 1 => n.Send m ctx msg

/-- State at the loop condition after `m` failed attempts and no wait cut short, as long as
the counter has not wrapped. -/
def stateAfter (r : RetryNotifier) (ctx : Context) (msg : Message) (m : Nat) : RetryState :=
  { attempt := (m : Int), delay := delayAt r (m - 1),
    lastErr := lastErrAfter r.notifier ctx msg m, trace := failTrace r ctx msg m }

/-- The variable `delay` holds `delayAt` of the number of waits made so far, and the waits
made so far had the delays `delayAt 0, delayAt 1, ...`. -/
def DelayInv (r : RetryNotifier) (st : RetryState) : Prop :=
  st.delay = delayAt r (waits st.trace).length ∧
  waits st.trace = (List.range (waits st.trace).length).map (delayAt r)

/-- The three ways in which a run of `RetryNotifier.Send` ends while the counter `attempt`
has not wrapped, with what it returns and the trace it leaves.

* `success k`: attempts `0 .. k-1` failed, no wait was cut short, attempt `k` succeeded.
* `cancelled k e`: attempts `0 .. k` failed, the waits before attempts `1 .. k` elapsed and
  the wait before attempt `k + 1` was cut short, `ctx.Err()` being `e`.
* `exhausted`: all the attempts `0 .. maxRetries` failed (none when `maxRetries < 0`) and no
  wait was cut short. -/
inductive RunKind (r : RetryNotifier) (rt : Runtime) (ctx : Context) (msg : Message) :
    Outcome → Prop where
  | success (k : Nat) (hk : (k : Int) ≤ r.maxRetries)
      (hfail : ∀ i, i < k → (r.notifier.Send i ctx msg).isSome)
      (hquiet : ∀ j, j < k → rt.selectDone j (delayAt r j) = none)
      (hsend : r.notifier.Send k ctx msg = none) :
      RunKind r rt ctx msg { err := none, trace := failTrace r ctx msg (k + 1) }
  | cancelled (k : Nat) (e : GoError) (hk : ((k + 1 : Nat) : Int) ≤ r.maxRetries)
      (hfail : ∀ i, i < k + 1 → (r.notifier.Send i ctx msg).isSome)
      (hquiet : ∀ j, j < k → rt.selectDone j (delayAt r j) = none)
      (hdone : rt.selectDone k (delayAt r k) = some e) :
      RunKind r rt ctx msg
        { err := some e, trace := failTrace r ctx msg (k + 1) ++ [Event.wait (delayAt r k)] }
  | exhausted
      (hfail : ∀ i, i < (r.maxRetries + 1).toNat → (r.notifier.Send i ctx msg).isSome)
      (hquiet : ∀ j, j + 1 < (r.maxRetries + 1).toNat → rt.selectDone j (delayAt r j) = none) :
      RunKind r rt ctx msg
        { err := some (errorfW ("failed after " ++ fmtD r.maxRetries ++ " retries: ")
                        (lastErrAfter r.notifier ctx msg (r.maxRetries + 1).toNat)),
          trace := failTrace r ctx msg (r.maxRetries + 1).toNat }

/-- The lines handed to a logger recorded in a trace, in order. -/
def logLines : List Event → List String
  | [] => []
  | .log _ line :: t => line :: logLines t
  | _ :: t => logLines t

/-! ## Description of the Slack payload -/

/-- The calls `Send(ctx, msg)` recorded in a trace, with their arguments, in order. -/
def sendCalls : List Event → List (Context × Message)
  | [] => []
  | .send ctx msg :: t => (ctx, msg) :: sendCalls t
  | _ :: t => sendCalls t

/-- The field that section 6 of the specification describes for an entry `(k, v)` of the
extra mapping: title `k`, value the default formatting of `v`, `short` true. -/
def extraField (kv : String × GoValue) : slackField :=
  { Title := kv.1, Value := sprintV kv.2, Short := true }

/-! ## Sample inputs -/

/-- A notifier whose every call fails; call `i` returns the error value number `i`. -/
def failing : Notifier :=
  { Name := "Failing", Send := fun i _ _ => some (GoError.external i "boom") }

/-- A notifier that fails on calls `0 .. k-1` and succeeds from call `k` on. -/
def succeedsAt (k : Nat) : Notifier :=
  { Name := "Flaky", Send := fun i _ _ => if i < k then some (GoError.external i "boom") else none }

/-- A runtime in which no wait is cut short. -/
def quiet : Runtime := { selectDone := fun _ _ => none }

/-- The error `context.Canceled`. -/
def ctxCanceled : GoError := GoError.external 1000 "context canceled"

/-- A runtime in which the context is cancelled during wait number `j` (and stays so). -/
def cancelledAt (j : Nat) : Runtime :=
  { selectDone := fun i _ => if i < j then none else some ctxCanceled }

/-- A runtime in which the context is already cancelled when `Send` is called: every
`select` finds `ctx.Done()` closed. -/
def cancelledOnEntry : Runtime := { selectDone := fun _ _ => some ctxCanceled }

/-- A retry decorator around `inner`, as the caller that wraps it sees it: its `Name()` is
that of `RetryNotifier`, and `outcomes i` is what its call number `i` returns. -/
def retryAsNotifier (inner : Notifier) (outcomes : Nat → Option GoError) : Notifier :=
  { Name := (WithRetry inner 3 1000000000 10000000000).Name, Send := fun i _ _ => outcomes i }

/-- A context. -/
def ctx0 : Context := { ident := 0 }

/-- The message of `TestSlackMessage_Building`. -/
def testMsg : Message :=
  { Title := "Test Title", Content := "Test Description", URI := "https://example.com",
    Priority := PriorityUrgent,
    Extra := [("Key1", GoValue.str "Value1"), ("Key2", GoValue.int 42)] }

/-- A map iteration that visits the entries in the order they are listed. -/
def listedOrder : MapRange := { visit := fun entries => entries, perm := fun _ => List.Perm.refl _ }

/-- A map iteration that visits the entries in the reverse order. -/
def reverseOrder : MapRange :=
  { visit := fun entries => entries.reverse, perm := fun entries => List.reverse_perm entries }

/-- A world in which serialization and request construction succeed and the server answers
every request with the given status code. -/
def serverAnswering (status : Int) : HTTPWorld :=
  { range := reverseOrder, now := 1700000000,
    marshal := fun _ => Except.ok "payload",
    newRequest := fun ctx method url body =>
      Except.ok { ctx := ctx, method := method, url := url, body := body, header := [] },
    Do := fun _ _ => Except.ok { StatusCode := status } }

/-- A world in which serialization and request construction succeed and the HTTP client
fails with a transport error. -/
def serverUnreachable : HTTPWorld :=
  { range := listedOrder, now := 1700000000,
    marshal := fun _ => Except.ok "payload",
    newRequest := fun ctx method url body =>
      Except.ok { ctx := ctx, method := method, url := url, body := body, header := [] },
    Do := fun _ _ => Except.error (GoError.external 7 "dial tcp: connection refused") }

/-- A Slack notifier with a 1 second timeout. -/
def testSlack : SlackNotifier :=
  { webhookURL := "http://127.0.0.1:8080", client := { Timeout := 1000000000 },
    config := { Timeout := 1000000000 } }

/-- A logging decorator around the always failing notifier. -/
def testLogging : LoggingNotifier := WithLogging failing none

/-- A clock on which the wrapped call took 1.5 ms. -/
def testClock : Clock := { since := 1500000, durationString := fun _ => "1.5ms" }

/-- One second, as a `time.Duration`. -/
def second : Int := 1000000000

/-! ## Machine integers: lemmas -/

theorem wrapInt64_eq_self {x : Int} (h1 : minInt64 ≤ x) (h2 : x ≤ maxInt64) :
    wrapInt64 x = x := by
  unfold wrapInt64
  unfold minInt64 at h1
  unfold maxInt64 at h2
  omega

theorem wrapInt64_le_max (x : Int) : wrapInt64 x ≤ maxInt64 := by
  unfold wrapInt64 maxInt64
  omega

theorem wrapInt64_succ_natCast {m : Nat} (h : (m : Int) < maxInt64) :
    wrapInt64 ((m : Int) + 1) = ((m + 1 : Nat) : Int) := by
  rw [wrapInt64_eq_self]
  · push_cast; rfl
  · unfold minInt64; omega
  · omega

/-! ## Traces: lemmas -/

theorem numSends_append (a b : List Event) : numSends (a ++ b) = numSends a + numSends b := by
  induction a with
  | nil => simp [numSends]
  | cons e t ih =>
    cases e <;> simp [numSends, ih, Nat.add_right_comm]

theorem waits_append (a b : List Event) : waits (a ++ b) = waits a ++ waits b := by
  induction a with
  | nil => simp [waits]
  | cons e t ih =>
    cases e <;> simp [waits, ih]

theorem numSends_failTrace (r : RetryNotifier) (ctx : Context) (msg : Message) (m : Nat) :
    numSends (failTrace r ctx msg m) = m := by
  induction m using Nat.strong_induction_on with
  | _ m ih =>
    match m with
    | 0 => simp [failTrace, numSends]
    | 1 => simp [failTrace, numSends]
    | k + 2 =>
      rw [failTrace, numSends_append, ih (k + 1) (by omega)]
      simp [numSends]

theorem waits_failTrace (r : RetryNotifier) (ctx : Context) (msg : Message) (m : Nat) :
    waits (failTrace r ctx msg (m + 1)) = (List.range m).map (delayAt r) := by
  induction m with
  | zero => simp [failTrace, waits]
  | succ k ih =>
    rw [failTrace, waits_append, ih, List.range_succ]
    simp [waits]

theorem waits_failTrace_length (r : RetryNotifier) (ctx : Context) (msg : Message) (m : Nat) :
    (waits (failTrace r ctx msg m)).length = m - 1 := by
  cases m with
  | zero => simp [failTrace, waits]
  | succ k => simp [waits_failTrace]

/-! ## One iteration of the retry loop -/

section Step

variable (r : RetryNotifier) (rt : Runtime) (ctx : Context) (msg : Message)

/-- The wait block, entered after `m` failed attempts. -/
theorem waitStep_stateAfter_zero :
    waitStep r rt (stateAfter r ctx msg 0) = Sum.inr (stateAfter r ctx msg 0) := by
  simp [waitStep, stateAfter]

theorem waitStep_stateAfter_succ_none (k : Nat)
    (hq : rt.selectDone k (delayAt r k) = none) :
    waitStep r rt (stateAfter r ctx msg (k + 1)) =
      Sum.inr { attempt := ((k + 1 : Nat) : Int), delay := delayAt r (k + 1),
                lastErr := r.notifier.Send k ctx msg,
                trace := failTrace r ctx msg (k + 1) ++ [Event.wait (delayAt r k)] } := by
  have hpos : (0 : Int) < ((k + 1 : Nat) : Int) := by omega
  simp only [waitStep, stateAfter, hpos, if_true, waits_failTrace_length,
    Nat.add_sub_cancel, hq, lastErrAfter, delayAt]

theorem waitStep_stateAfter_succ_some (k : Nat) (e : GoError)
    (hq : rt.selectDone k (delayAt r k) = some e) :
    waitStep r rt (stateAfter r ctx msg (k + 1)) =
      Sum.inl { err := some e,
                trace := failTrace r ctx msg (k + 1) ++ [Event.wait (delayAt r k)] } := by
  have hpos : (0 : Int) < ((k + 1 : Nat) : Int) := by omega
  simp only [waitStep, stateAfter, hpos, if_true, waits_failTrace_length,
    Nat.add_sub_cancel, hq]

/-- An attempt that fails, reached after `m` failed attempts, leads to the state after
`m + 1` failed attempts. -/
theorem retryLoop_step_fail (m : Nat) (f : Nat)
    (hle : (m : Int) ≤ r.maxRetries) (hmax : (m : Int) < maxInt64)
    (hsend : (r.notifier.Send m ctx msg).isSome)
    (hq : ∀ k, k + 1 = m → rt.selectDone k (delayAt r k) = none) :
    retryLoop r rt ctx msg (f + 1) (stateAfter r ctx msg m) =
      retryLoop r rt ctx msg f (stateAfter r ctx msg (m + 1)) := by
  obtain ⟨e, he⟩ := Option.isSome_iff_exists.mp hsend
  cases m with
  | zero =>
    rw [retryLoop, if_pos (by simpa [stateAfter] using hle), waitStep_stateAfter_zero]
    simp only [stateAfter, failTrace, numSends, he, lastErrAfter, delayAt, List.nil_append,
      Nat.zero_add, Nat.sub_self, Nat.cast_zero, Nat.cast_one]
    rw [wrapInt64_eq_self (by unfold minInt64; omega) (by unfold maxInt64; omega)]
    rfl
  | succ k =>
    rw [retryLoop, if_pos (by simpa [stateAfter] using hle),
      waitStep_stateAfter_succ_none r rt ctx msg k (hq k rfl)]
    simp only [numSends_append, numSends_failTrace, numSends, Nat.add_zero, he]
    rw [wrapInt64_succ_natCast hmax]
    simp [stateAfter, failTrace, lastErrAfter, he]

/-- The first `m` attempts, when they all fail and no wait before them is cut short. -/
theorem retryLoop_fail_prefix (m : Nat) (f : Nat)
    (hle : (m : Int) ≤ r.maxRetries + 1) (hmax : (m : Int) ≤ maxInt64)
    (hfail : ∀ i, i < m → (r.notifier.Send i ctx msg).isSome)
    (hq : ∀ k, k + 1 < m → rt.selectDone k (delayAt r k) = none) :
    retryLoop r rt ctx msg (f + m) (stateAfter r ctx msg 0) =
      retryLoop r rt ctx msg f (stateAfter r ctx msg m) := by
  induction m generalizing f with
  | zero => rfl
  | succ k ih =>
    have h1 : f + (k + 1) = (f + 1) + k := by omega
    rw [h1, ih (f + 1) (by omega) (by omega) (fun i hi => hfail i (by omega))
      (fun j hj => hq j (by omega))]
    exact retryLoop_step_fail r rt ctx msg k f (by omega) (by omega) (hfail k (by omega))
      (fun j hj => hq j (by omega))

/-- An attempt that succeeds, reached after `m` failed attempts. -/
theorem retryLoop_step_success (m : Nat) (f : Nat)
    (hle : (m : Int) ≤ r.maxRetries)
    (hsend : r.notifier.Send m ctx msg = none)
    (hq : ∀ k, k + 1 = m → rt.selectDone k (delayAt r k) = none) :
    retryLoop r rt ctx msg (f + 1) (stateAfter r ctx msg m) =
      some { err := none, trace := failTrace r ctx msg (m + 1) } := by
  cases m with
  | zero =>
    rw [retryLoop, if_pos (by simpa [stateAfter] using hle), waitStep_stateAfter_zero]
    simp [stateAfter, failTrace, numSends, hsend]
  | succ k =>
    rw [retryLoop, if_pos (by simpa [stateAfter] using hle),
      waitStep_stateAfter_succ_none r rt ctx msg k (hq k rfl)]
    simp [numSends_append, numSends_failTrace, numSends, hsend, failTrace]

/-- A wait cut short by the context, reached after `k + 1` failed attempts. -/
theorem retryLoop_step_cancel (k : Nat) (f : Nat) (e : GoError)
    (hle : ((k + 1 : Nat) : Int) ≤ r.maxRetries)
    (hq : rt.selectDone k (delayAt r k) = some e) :
    retryLoop r rt ctx msg (f + 1) (stateAfter r ctx msg (k + 1)) =
      some { err := some e,
             trace := failTrace r ctx msg (k + 1) ++ [Event.wait (delayAt r k)] } := by
  rw [retryLoop, if_pos (by simpa [stateAfter] using hle),
    waitStep_stateAfter_succ_some r rt ctx msg k e hq]

/-- Leaving the loop: the counter has passed `maxRetries`. -/
theorem retryLoop_step_exit (m : Nat) (f : Nat) (hgt : r.maxRetries < (m : Int)) :
    retryLoop r rt ctx msg (f + 1) (stateAfter r ctx msg m) =
      some { err := some (errorfW ("failed after " ++ fmtD r.maxRetries ++ " retries: ")
                            (lastErrAfter r.notifier ctx msg m)),
             trace := failTrace r ctx msg m } := by
  rw [retryLoop, if_neg (by simpa [stateAfter] using hgt)]
  rfl

end Step

/-! ## Runs of `RetryNotifier.Send` -/

/-- With `maxRetries = math.MaxInt64` the loop condition `attempt <= maxRetries` holds for
every value of the counter, so a run in which every attempt fails and no wait is cut short
never leaves the loop. -/
theorem retryLoop_maxInt_diverges (r : RetryNotifier) (rt : Runtime) (ctx : Context)
    (msg : Message) (hR : r.maxRetries = maxInt64)
    (hfail : ∀ i, (r.notifier.Send i ctx msg).isSome)
    (hq : ∀ j d, rt.selectDone j d = none) (fuel : Nat) (st : RetryState)
    (hst : st.attempt ≤ maxInt64) :
    retryLoop r rt ctx msg fuel st = none := by
  induction fuel generalizing st with
  | zero => rfl
  | succ f ih =>
    rw [retryLoop, if_pos (by rw [hR]; exact hst)]
    have hw : ∃ st1, waitStep r rt st = Sum.inr st1 := by
      unfold waitStep
      split
      · simp only [hq]
        exact ⟨_, rfl⟩
      · exact ⟨_, rfl⟩
    obtain ⟨st1, h1⟩ := hw
    rw [h1]
    obtain ⟨e, he⟩ := Option.isSome_iff_exists.mp (hfail (numSends st1.trace))
    simp only [he]
    exact ih _ (wrapInt64_le_max _)

/-- The whole run when every attempt fails and no wait is cut short, for `maxRetries = R`
with `0 ≤ R < math.MaxInt64`: the loop is left after `R + 1` attempts. -/
theorem retry_run_all_fail (n : Notifier) (R : Nat) (d dmax : Int) (rt : Runtime)
    (ctx : Context) (msg : Message) (f : Nat)
    (hR : (R : Int) < maxInt64)
    (hfail : ∀ i, (n.Send i ctx msg).isSome)
    (hq : ∀ j dl, rt.selectDone j dl = none) :
    (WithRetry n R d dmax).Send rt ctx msg (f + (R + 2)) =
      some { err := some (errorfW ("failed after " ++ fmtD (R : Int) ++ " retries: ")
                            (lastErrAfter n ctx msg (R + 1))),
             trace := failTrace (WithRetry n R d dmax) ctx msg (R + 1) } := by
  have h1 : f + (R + 2) = (f + 1) + (R + 1) := by omega
  unfold RetryNotifier.Send
  rw [h1]
  have h2 := retryLoop_fail_prefix (WithRetry n R d dmax) rt ctx msg (R + 1) (f + 1)
    (by simp [WithRetry]) (by push_cast; omega) (fun i _ => hfail i) (fun k _ => hq k _)
  have h3 := retryLoop_step_exit (WithRetry n R d dmax) rt ctx msg (R + 1) f
    (by simp [WithRetry])
  exact h2.trans h3

/-- Supporting result for C1: for every `maxRetries = R` with `0 ≤ R < math.MaxInt64`, when
every call to the wrapped `Send` fails and no wait is cut short, `RetryNotifier.Send`
returns (with any fuel of at least `R + 2`) after exactly `R + 1` calls, and the error it
returns is `fmt.Errorf("failed after %d retries: %w", R, e)` for the error `e` of the last
call: its text is "failed after R retries: " followed by the text of `e`, and it wraps `e`. -/
theorem retry_exhausted_below_maxInt (n : Notifier) (R : Nat) (d dmax : Int) (rt : Runtime)
    (ctx : Context) (msg : Message) (f : Nat)
    (hR : (R : Int) < maxInt64)
    (hfail : ∀ i, (n.Send i ctx msg).isSome)
    (hq : ∀ j dl, rt.selectDone j dl = none) :
    ∃ e out, n.Send R ctx msg = some e ∧
      (WithRetry n R d dmax).Send rt ctx msg (f + (R + 2)) = some out ∧
      numSends out.trace = R + 1 ∧
      out.err = some (GoError.wrapError ("failed after " ++ fmtD (R : Int) ++ " retries: " ++ e.Error) e) ∧
      (∀ e2, out.err = some e2 →
        e2.Error = "failed after " ++ fmtD (R : Int) ++ " retries: " ++ e.Error ∧
        e2.Unwrap = some e) := by
  obtain ⟨e, he⟩ := Option.isSome_iff_exists.mp (hfail R)
  have hrun := retry_run_all_fail n R d dmax rt ctx msg f hR hfail hq
  refine ⟨e, _, he, hrun, numSends_failTrace _ _ _ _, ?_, ?_⟩
  · simp only [lastErrAfter, he, errorfW]
  · intro e2 h2
    simp only [lastErrAfter, he, errorfW, Option.some.injEq] at h2
    subst h2
    exact ⟨rfl, rfl⟩

/-- Claim C1, at `maxRetries = math.MaxInt64` (9223372036854775807): with a wrapped
notifier that fails on every call and no cancellation, the counter `attempt` wraps from
`MaxInt64` to `MinInt64`, the loop condition stays true and `RetryNotifier.Send` does not
return, whatever the fuel; the claim says it returns after `R + 1` calls. -/
theorem retry_maxInt64_never_returns :
    ∀ fuel, (WithRetry failing maxInt64 second (10 * second)).Send quiet ctx0 testMsg fuel
      = none := by
  intro fuel
  exact retryLoop_maxInt_diverges (WithRetry failing maxInt64 second (10 * second)) quiet ctx0
    testMsg rfl (fun _ => rfl) (fun _ _ => rfl) fuel _ (by decide)

/-- Claim C2: for `maxRetries = R` with `0 ≤ R` (a Go `int`) and `k ≤ R`, when the wrapped
`Send` fails on calls `0 .. k-1` and succeeds on call `k`, and no wait is cut short by the
context, `RetryNotifier.Send` returns (with any fuel of at least `k + 1`), returns nil, and
has made exactly `k + 1` calls to the wrapped `Send`. -/
theorem retry_succeeds_at_attempt (n : Notifier) (R : Int) (k : Nat) (d dmax : Int)
    (rt : Runtime) (ctx : Context) (msg : Message) (f : Nat)
    (hR : R ≤ maxInt64) (hk : (k : Int) ≤ R)
    (hfail : ∀ i, i < k → (n.Send i ctx msg).isSome)
    (hsucc : n.Send k ctx msg = none)
    (hq : ∀ j dl, rt.selectDone j dl = none) :
    ∃ out, (WithRetry n R d dmax).Send rt ctx msg (f + (k + 1)) = some out ∧
      out.err = none ∧ numSends out.trace = k + 1 := by
  refine ⟨{ err := none, trace := failTrace (WithRetry n R d dmax) ctx msg (k + 1) }, ?_, rfl,
    numSends_failTrace _ _ _ _⟩
  have h1 : f + (k + 1) = (f + 1) + k := by omega
  unfold RetryNotifier.Send
  rw [h1]
  have h2 := retryLoop_fail_prefix (WithRetry n R d dmax) rt ctx msg k (f + 1)
    (by simp only [WithRetry]; omega) (by omega) hfail (fun j _ => hq j _)
  have h3 := retryLoop_step_success (WithRetry n R d dmax) rt ctx msg k f
    (by simpa [WithRetry] using hk) hsucc (fun j _ => hq j _)
  exact h2.trans h3

/-- Claim C3: for `maxRetries = R` (a Go `int`) and `1 ≤ n ≤ R`, when attempts `0 .. n-1`
all fail, the waits before attempts `1 .. n-1` elapse and the context is cancelled during
the wait that precedes attempt `n` (so that `ctx.Err()` is `cerr`), `RetryNotifier.Send`
returns (with any fuel of at least `n + 1`) exactly `cerr`, after exactly `n` calls to the
wrapped `Send` and `n` waits: attempt `n` is not made. -/
theorem retry_cancelled_during_wait (nt : Notifier) (R : Int) (n : Nat) (d dmax : Int)
    (rt : Runtime) (ctx : Context) (msg : Message) (cerr : GoError) (f : Nat)
    (hR : R ≤ maxInt64) (hn1 : 1 ≤ n) (hn : (n : Int) ≤ R)
    (hfail : ∀ i, i < n → (nt.Send i ctx msg).isSome)
    (hq : ∀ j dl, j + 1 < n → rt.selectDone j dl = none)
    (hcancel : ∀ dl, rt.selectDone (n - 1) dl = some cerr) :
    ∃ out, (WithRetry nt R d dmax).Send rt ctx msg (f + (n + 1)) = some out ∧
      out.err = some cerr ∧ numSends out.trace = n ∧ (waits out.trace).length = n := by
  obtain ⟨k, rfl⟩ : ∃ k, n = k + 1 := ⟨n - 1, by omega⟩
  refine ⟨{ err := some cerr,
            trace := failTrace (WithRetry nt R d dmax) ctx msg (k + 1) ++
              [Event.wait (delayAt (WithRetry nt R d dmax) k)] }, ?_, rfl, ?_, ?_⟩
  · have h1 : f + (k + 1 + 1) = (f + 1) + (k + 1) := by omega
    unfold RetryNotifier.Send
    rw [h1]
    have h2 := retryLoop_fail_prefix (WithRetry nt R d dmax) rt ctx msg (k + 1) (f + 1)
      (by simp only [WithRetry]; omega) (by omega) hfail (fun j hj => hq j _ hj)
    have h3 := retryLoop_step_cancel (WithRetry nt R d dmax) rt ctx msg k f cerr
      (by simpa [WithRetry] using hn) (by simpa using hcancel _)
    exact h2.trans h3
  · simp [numSends_append, numSends_failTrace, numSends]
  · simp [waits_append, waits_failTrace, waits]

/-! ## The delays waited -/

theorem waits_snoc_wait (r : RetryNotifier) (tr : List Event) (dl : Int)
    (hd : dl = delayAt r (waits tr).length)
    (hw : waits tr = (List.range (waits tr).length).map (delayAt r)) :
    waits (tr ++ [Event.wait dl]) =
      (List.range (waits (tr ++ [Event.wait dl])).length).map (delayAt r) := by
  have hlen : (waits (tr ++ [Event.wait dl])).length = (waits tr).length + 1 := by
    simp [waits_append, waits]
  rw [hlen, List.range_succ, List.map_append, ← hw, waits_append, hd]
  simp [waits]

/-- In every run that returns, whatever the wrapped notifier and the context do, the
`j`-th wait is entered with the delay `delayAt r j`. -/
theorem retryLoop_waits (r : RetryNotifier) (rt : Runtime) (ctx : Context) (msg : Message)
    (fuel : Nat) (st : RetryState) (out : Outcome) (hinv : DelayInv r st)
    (hrun : retryLoop r rt ctx msg fuel st = some out) :
    waits out.trace = (List.range (waits out.trace).length).map (delayAt r) := by
  induction fuel generalizing st with
  | zero => simp [retryLoop] at hrun
  | succ f ih =>
    rw [retryLoop] at hrun
    split at hrun
    · have hstep : (∃ o, waitStep r rt st = Sum.inl o ∧
            waits o.trace = (List.range (waits o.trace).length).map (delayAt r)) ∨
          (∃ st1, waitStep r rt st = Sum.inr st1 ∧ DelayInv r st1) := by
        unfold waitStep
        split
        · split
          · exact Or.inl ⟨_, rfl, waits_snoc_wait r _ _ hinv.1 hinv.2⟩
          · refine Or.inr ⟨_, rfl, ?_, waits_snoc_wait r _ _ hinv.1 hinv.2⟩
            simp [waits_append, waits, delayAt, hinv.1]
        · exact Or.inr ⟨st, rfl, hinv⟩
      rcases hstep with ⟨o, ho, hw⟩ | ⟨st1, hs, hinv1⟩
      · rw [ho] at hrun
        simp only [Option.some.injEq] at hrun
        subst hrun
        exact hw
      · rw [hs] at hrun
        have hsend : waits (st1.trace ++ [Event.send ctx msg]) = waits st1.trace := by
          simp [waits_append, waits]
        dsimp only at hrun
        cases hsd : r.notifier.Send (numSends st1.trace) ctx msg with
        | none =>
          rw [hsd] at hrun
          simp only [Option.some.injEq] at hrun
          subst hrun
          simp only [hsend]
          exact hinv1.2
        | some e =>
          rw [hsd] at hrun
          refine ih _ ?_ hrun
          refine ⟨?_, ?_⟩
          · simp only [hsend]
            exact hinv1.1
          · simp only [hsend]
            exact hinv1.2
    · simp only [Option.some.injEq] at hrun
      subst hrun
      exact hinv.2

/-- The delays of a returning run of `RetryNotifier.Send`: wait number `j` (the one that
precedes call `j + 1`) is entered with `delayAt r j`. -/
theorem retry_waits (r : RetryNotifier) (rt : Runtime) (ctx : Context) (msg : Message)
    (fuel : Nat) (out : Outcome) (hrun : r.Send rt ctx msg fuel = some out) (j : Nat)
    (dl : Int) (hj : (waits out.trace)[j]? = some dl) : dl = delayAt r j := by
  have hw := retryLoop_waits r rt ctx msg fuel _ out (by simp [DelayInv, waits, delayAt]) hrun
  rw [hw, List.getElem?_map] at hj
  rcases Nat.lt_or_ge j (waits out.trace).length with hlt | hge
  · rw [List.getElem?_range hlt] at hj
    simpa using hj.symm
  · rw [List.getElem?_eq_none (by simpa using hge)] at hj
    simp at hj

/-- Doubling stays below the cap: closed form of `delayAt` for `0 < initial ≤ maximum` and
`maximum < 2^62` nanoseconds, the range in which `delay *= 2` cannot overflow. -/
theorem delayAt_eq_min (r : RetryNotifier) (h0 : 0 < r.retryDelay)
    (hle : r.retryDelay ≤ r.maxRetryDelay) (hmax : r.maxRetryDelay < 4611686018427387904)
    (j : Nat) : delayAt r j = min (r.retryDelay * 2 ^ j) r.maxRetryDelay := by
  induction j with
  | zero => simp [delayAt, hle]
  | succ k ih =>
    have hpos : 0 < r.retryDelay * 2 ^ k := by positivity
    have hpow : r.retryDelay * 2 ^ (k + 1) = (r.retryDelay * 2 ^ k) * 2 := by ring
    rw [delayAt, ih, hpow]
    generalize r.retryDelay * 2 ^ k = x at hpos
    unfold backoff
    have hx : 0 < min x r.maxRetryDelay := lt_min hpos (by omega)
    have hx2 : min x r.maxRetryDelay ≤ r.maxRetryDelay := min_le_right _ _
    rw [wrapInt64_eq_self (by unfold minInt64; omega) (by unfold maxInt64; omega)]
    simp only []
    rcases le_total x r.maxRetryDelay with h | h
    · rw [min_eq_left h]
      split
      · rw [min_eq_right (by omega)]
      · rw [min_eq_left (by omega)]
    · rw [min_eq_right h, if_pos (by omega), min_eq_right (by omega)]

/-- Misconfiguration `maximum < initial`: the first wait uses the initial delay as it is,
and the first backoff update clamps every later delay to the maximum (`initial < 2^62`
nanoseconds, so that `delay *= 2` does not overflow). -/
theorem delayAt_misconfigured (r : RetryNotifier) (h0 : 0 < r.maxRetryDelay)
    (hlt : r.maxRetryDelay < r.retryDelay) (hmax : r.retryDelay < 4611686018427387904)
    (j : Nat) : delayAt r j = if j = 0 then r.retryDelay else r.maxRetryDelay := by
  induction j with
  | zero => simp [delayAt]
  | succ k ih =>
    rw [delayAt, ih]
    unfold backoff
    split
    · rw [wrapInt64_eq_self (by unfold minInt64; omega) (by unfold maxInt64; omega)]
      simp only [Nat.succ_ne_zero, if_false]
      rw [if_pos (by omega)]
    · rw [wrapInt64_eq_self (by unfold minInt64; omega) (by unfold maxInt64; omega)]
      simp only [Nat.succ_ne_zero, if_false]
      rw [if_pos (by omega)]

/-- The waits of the run in which every attempt fails and no wait is cut short. -/
theorem retry_waits_all_fail (n : Notifier) (R : Nat) (d dmax : Int) (rt : Runtime)
    (ctx : Context) (msg : Message) (f : Nat)
    (hR : (R : Int) < maxInt64)
    (hfail : ∀ i, (n.Send i ctx msg).isSome)
    (hq : ∀ j dl, rt.selectDone j dl = none) :
    ∃ out, (WithRetry n R d dmax).Send rt ctx msg (f + (R + 2)) = some out ∧
      out.trace = failTrace (WithRetry n R d dmax) ctx msg (R + 1) ∧
      waits out.trace = (List.range R).map (delayAt (WithRetry n R d dmax)) :=
  ⟨_, retry_run_all_fail n R d dmax rt ctx msg f hR hfail hq, rfl, waits_failTrace _ _ _ _⟩

/-- Supporting result for C4: for `0 < initial ≤ maximum < 2^62` nanoseconds, in every run
of `RetryNotifier.Send` that returns, the wait before call `j + 1` is entered with the delay
`min (initial * 2^j) maximum`. -/
theorem retry_backoff_delays_below_overflow (n : Notifier) (R : Int) (d dmax : Int)
    (rt : Runtime) (ctx : Context) (msg : Message) (fuel : Nat) (out : Outcome)
    (h0 : 0 < d) (hle : d ≤ dmax) (hmax : dmax < 4611686018427387904)
    (hrun : (WithRetry n R d dmax).Send rt ctx msg fuel = some out) (j : Nat) (dl : Int)
    (hj : (waits out.trace)[j]? = some dl) : dl = min (d * 2 ^ j) dmax := by
  rw [retry_waits _ rt ctx msg fuel out hrun j dl hj]
  exact delayAt_eq_min (WithRetry n R d dmax) h0 hle hmax j

/-- Supporting result for C4: with initial delay 1s, maximum delay 10s, `maxRetries = 6`,
every attempt failing and no cancellation, the run starts with attempt 0 (no wait before
it) and the delays waited before attempts 1 to 6 are 1s, 2s, 4s, 8s, 10s, 10s. -/
theorem retry_backoff_1s_10s :
    ∃ out, (WithRetry failing 6 second (10 * second)).Send quiet ctx0 testMsg 8 = some out ∧
      out.trace.head? = some (Event.send ctx0 testMsg) ∧
      numSends out.trace = 7 ∧
      waits out.trace = [1000000000, 2000000000, 4000000000, 8000000000, 10000000000,
        10000000000] := by
  obtain ⟨out, h1, h2, h3⟩ := retry_waits_all_fail failing 6 second (10 * second) quiet ctx0
    testMsg 0 (by decide) (fun _ => rfl) (fun _ _ => rfl)
  refine ⟨out, h1, ?_, ?_, ?_⟩
  · rw [h2]; rfl
  · rw [h2]; exact numSends_failTrace _ _ _ _
  · rw [h3]; decide

/-- Claim C4, at initial delay `2^62` ns, maximum delay `math.MaxInt64` ns, `maxRetries = 2`,
every attempt failing and no cancellation: the delay waited before attempt 1 is `2^62` ns,
then `delay *= 2` overflows `int64` and the delay waited before attempt 2 is
`-2^63` ns (`math.MinInt64`), where the claim gives `min (2^62 * 2) MaxInt64 = MaxInt64`. -/
theorem retry_backoff_overflow :
    ∃ out, (WithRetry failing 2 4611686018427387904 maxInt64).Send quiet ctx0 testMsg 4
        = some out ∧
      waits out.trace = [4611686018427387904, -9223372036854775808] ∧
      min ((4611686018427387904 : Int) * 2 ^ 1) maxInt64 = 9223372036854775807 := by
  obtain ⟨out, h1, _, h3⟩ := retry_waits_all_fail failing 2 4611686018427387904 maxInt64 quiet
    ctx0 testMsg 0 (by decide) (fun _ => rfl) (fun _ _ => rfl)
  refine ⟨out, h1, ?_, by decide⟩
  rw [h3]; decide

/-- Claim C9 as stated fails: with `maxRetries = 0` and a wrapped call that returns the
error `boom`, `RetryNotifier.Send` returns a new error, with the text
"failed after 0 retries: boom", that wraps `boom`; it does not return `boom` itself. -/
theorem retry_zero_wraps_the_error :
    ∃ out, (WithRetry failing 0 second (10 * second)).Send quiet ctx0 testMsg 2 = some out ∧
      out.err = some (GoError.wrapError "failed after 0 retries: boom"
        (GoError.external 0 "boom")) ∧
      out.err ≠ failing.Send 0 ctx0 testMsg := by
  refine ⟨_, retry_run_all_fail failing 0 second (10 * second) quiet ctx0 testMsg 0
    (by decide) (fun _ => rfl) (fun _ _ => rfl), ?_, ?_⟩
  · decide
  · decide

/-- Claim C9, amended: for `maxRetries = 0`, every wrapped notifier, context and message,
`RetryNotifier.Send` returns (with any fuel of at least 2) after exactly one call to the
wrapped `Send` and no wait; it returns nil when that call returned nil, and when that call
returned an error `e` it returns `fmt.Errorf("failed after %d retries: %w", 0, e)`: a new
error with the text "failed after 0 retries: " followed by the text of `e`, wrapping `e`. -/
theorem retry_zero_single_attempt (n : Notifier) (d dmax : Int) (rt : Runtime)
    (ctx : Context) (msg : Message) (f : Nat) :
    (WithRetry n 0 d dmax).Send rt ctx msg (f + 2) =
      some { err := (n.Send 0 ctx msg).map
                      (fun e => GoError.wrapError ("failed after 0 retries: " ++ e.Error) e),
             trace := [Event.send ctx msg] } := by
  cases h : n.Send 0 ctx msg with
  | none =>
    exact retryLoop_step_success (WithRetry n 0 d dmax) rt ctx msg 0 (f + 1)
      (by simp [WithRetry]) h (fun k hk => absurd hk (by omega))
  | some e =>
    have h1 := retryLoop_step_fail (WithRetry n 0 d dmax) rt ctx msg 0 (f + 1)
      (by simp [WithRetry]) (by decide) (by simp [WithRetry, h])
      (fun k hk => absurd hk (by omega))
    have h2 := retryLoop_step_exit (WithRetry n 0 d dmax) rt ctx msg 1 f
      (by simp [WithRetry])
    have h3 := h1.trans h2
    simp only [lastErrAfter, WithRetry, h, errorfW] at h3
    exact h3

/-- Claim C10 as stated fails: with initial delay 5s, maximum delay 1s and `maxRetries = 1`,
the delay waited before attempt 1 is 5s, the initial delay, which exceeds the maximum. -/
theorem retry_misconfigured_first_wait :
    ∃ out, (WithRetry failing 1 (5 * second) second).Send quiet ctx0 testMsg 3 = some out ∧
      waits out.trace = [5000000000] ∧ second < 5000000000 := by
  obtain ⟨out, h1, _, h3⟩ := retry_waits_all_fail failing 1 (5 * second) second quiet
    ctx0 testMsg 0 (by decide) (fun _ => rfl) (fun _ _ => rfl)
  refine ⟨out, h1, ?_, by decide⟩
  rw [h3]; decide

/-- Claim C10, amended: for `0 < maximum < initial` (and `initial < 2^62` ns, so that
`delay *= 2` does not overflow), in every run of `RetryNotifier.Send` that returns, the
first wait (the one before attempt 1) is entered with the initial delay, unclamped, and
every later wait with the maximum delay; and for `1 ≤ maxRetries = R < math.MaxInt64`,
when every attempt fails and no wait is cut short, the run returns and its waits are the
initial delay followed by `R - 1` times the maximum delay. -/
theorem retry_misconfigured_delays (n : Notifier) (d dmax : Int) (rt : Runtime)
    (ctx : Context) (msg : Message)
    (h0 : 0 < dmax) (hlt : dmax < d) (hov : d < 4611686018427387904) :
    (∀ (R : Int) (fuel : Nat) (out : Outcome),
      (WithRetry n R d dmax).Send rt ctx msg fuel = some out →
      ∀ j dl, (waits out.trace)[j]? = some dl → dl = if j = 0 then d else dmax) ∧
    (∀ (R f : Nat), 1 ≤ R → (R : Int) < maxInt64 →
      (∀ i, (n.Send i ctx msg).isSome) → (∀ j dl, rt.selectDone j dl = none) →
      ∃ out, (WithRetry n R d dmax).Send rt ctx msg (f + (R + 2)) = some out ∧
        waits out.trace = d :: List.replicate (R - 1) dmax) := by
  constructor
  · intro R fuel out hrun j dl hj
    rw [retry_waits _ rt ctx msg fuel out hrun j dl hj]
    exact delayAt_misconfigured (WithRetry n R d dmax) h0 hlt hov j
  · intro R f hR1 hR hfail hq
    obtain ⟨out, h1, _, h3⟩ := retry_waits_all_fail n R d dmax rt ctx msg f hR hfail hq
    refine ⟨out, h1, ?_⟩
    rw [h3]
    obtain ⟨k, rfl⟩ : ∃ k, R = k + 1 := ⟨R - 1, by omega⟩
    apply List.ext_getElem?
    intro i
    rcases Nat.lt_or_ge i (k + 1) with hi | hi
    · rw [List.getElem?_map, List.getElem?_range hi]
      simp only [Option.map_some', Nat.add_sub_cancel]
      rw [delayAt_misconfigured (WithRetry n _ d dmax) h0 hlt hov i]
      cases i with
      | zero => simp [WithRetry]
      | succ i =>
        simp only [Nat.succ_ne_zero, if_false, List.getElem?_cons_succ]
        rw [List.getElem?_eq_getElem (by simpa using (by omega : i < k))]
        simp [WithRetry]
    · rw [List.getElem?_eq_none (by simpa using hi),
        List.getElem?_eq_none (by simpa using hi)]

/-! ## The logging decorator -/

/-- Claim C5: for every wrapped notifier, context and message, `LoggingNotifier.Send` calls
the wrapped `Send` exactly once, with the same context and message, and returns exactly what
that call returned: nil for nil, and the same error value, neither wrapped nor rewritten,
for an error. -/
theorem logging_forwards_outcome (l : LoggingNotifier) (clk : Clock) (i : Nat)
    (ctx : Context) (msg : Message) :
    (l.Send clk i ctx msg).err = l.notifier.Send i ctx msg ∧
    numSends (l.Send clk i ctx msg).trace = 1 ∧
    sendCalls (l.Send clk i ctx msg).trace = [(ctx, msg)] := by
  refine ⟨rfl, ?_, ?_⟩
  · cases h : l.notifier.Send i ctx msg <;> simp [LoggingNotifier.Send, numSends, h]
  · cases h : l.notifier.Send i ctx msg <;> simp [LoggingNotifier.Send, sendCalls, h]

/-! ## The Slack payload -/

theorem foldl_fields (entries : List (String × GoValue)) (att : slackAttachment) :
    entries.foldl
      (fun (a : slackAttachment) (kv : String × GoValue) =>
        { a with Fields := a.Fields ++ [{ Title := kv.1, Value := sprintV kv.2, Short := true }] })
      att = { att with Fields := att.Fields ++ entries.map extraField } := by
  induction entries generalizing att with
  | nil => simp
  | cons kv t ih =>
    rw [List.foldl_cons, ih]
    simp [extraField]

/-- The message built by `buildSlackMessage`, in closed form. -/
theorem buildSlackMessage_eq (rg : MapRange) (now : Int) (msg : Message) :
    buildSlackMessage rg now msg =
      { Attachments := [{ Color := getColorForPriority msg.Priority, Title := msg.Title,
                          TitleLink := msg.URI, Text := msg.Content, Footer := "",
                          Timestamp := now,
                          Fields := (rg.visit msg.Extra).map extraField }] } := by
  unfold buildSlackMessage
  simp only [foldl_fields, List.nil_append]

/-- Claim C6: `getColorForPriority` returns "#3AA3E3" for `PriorityLow` (0), "#36a64f" for
`PriorityNormal` (1), "#ff9900" for `PriorityHigh` (2), "#ff0000" for `PriorityUrgent` (3)
and "#3AA3E3" for every other integer (negative or greater than 3); the colour of the
attachment built by `buildSlackMessage` is this value for the priority of the message. -/
theorem color_for_priority (p : Int) (rg : MapRange) (now : Int) (msg : Message) :
    (p = PriorityLow → getColorForPriority p = "#3AA3E3") ∧
    (p = PriorityNormal → getColorForPriority p = "#36a64f") ∧
    (p = PriorityHigh → getColorForPriority p = "#ff9900") ∧
    (p = PriorityUrgent → getColorForPriority p = "#ff0000") ∧
    (p < 0 ∨ 3 < p → getColorForPriority p = "#3AA3E3") ∧
    (buildSlackMessage rg now msg).Attachments.map slackAttachment.Color =
      [getColorForPriority msg.Priority] := by
  refine ⟨?_, ?_, ?_, ?_, ?_, ?_⟩
  · rintro rfl; rfl
  · rintro rfl; rfl
  · rintro rfl; rfl
  · rintro rfl; rfl
  · intro h
    have h0 : ¬ p = (0 : Int) := by omega
    have h1 : ¬ p = (1 : Int) := by omega
    have h2 : ¬ p = (2 : Int) := by omega
    have h3 : ¬ p = (3 : Int) := by omega
    unfold getColorForPriority PriorityLow PriorityNormal PriorityHigh PriorityUrgent
    rw [if_neg h0, if_neg h1, if_neg h2, if_neg h3]
  · rw [buildSlackMessage_eq]; rfl

/-- Claim C7: for a message whose `Extra` mapping has `N` entries (`N = 0` and the nil
mapping included), the payload has one attachment whose `Fields` list has exactly `N`
entries and is, up to order, the list of the fields `{Title: k, Value: Sprintf("%v", v),
Short: true}` over the entries `(k, v)` of `Extra`: every field comes from an entry, `Short`
is true on every field, and since the keys of a map are distinct every key is the title of
exactly one field. -/
theorem slack_fields_of_extra (rg : MapRange) (now : Int) (msg : Message) :
    ∃ att, (buildSlackMessage rg now msg).Attachments = [att] ∧
      att.Fields.length = msg.Extra.length ∧
      att.Fields.Perm (msg.Extra.map extraField) ∧
      (∀ f ∈ att.Fields, f.Short = true ∧ ∃ kv ∈ msg.Extra, f = extraField kv) ∧
      ((msg.Extra.map Prod.fst).Nodup →
        ∀ kv ∈ msg.Extra, (att.Fields.map slackField.Title).count kv.1 = 1) := by
  have hperm : ((rg.visit msg.Extra).map extraField).Perm (msg.Extra.map extraField) :=
    (rg.perm msg.Extra).map extraField
  refine ⟨_, by rw [buildSlackMessage_eq], ?_, hperm, ?_, ?_⟩
  · simpa using (rg.perm msg.Extra).length_eq
  · intro f hf
    obtain ⟨kv, hkv, rfl⟩ := List.mem_map.mp (hperm.mem_iff.mp hf)
    exact ⟨rfl, kv, hkv, rfl⟩
  · intro hnd kv hkv
    have htitles : (((rg.visit msg.Extra).map extraField).map slackField.Title).Perm
        (msg.Extra.map Prod.fst) := by
      have h1 := hperm.map slackField.Title
      have h2 : (msg.Extra.map extraField).map slackField.Title = msg.Extra.map Prod.fst := by
        rw [List.map_map]; rfl
      rwa [h2] at h1
    show (((rg.visit msg.Extra).map extraField).map slackField.Title).count kv.1 = 1
    rw [htitles.count_eq]
    exact List.count_eq_one_of_mem hnd (List.mem_map.mpr ⟨kv, hkv, rfl⟩)

/-! ## The Slack backend -/

/-- Claim C8: whenever serialization and request construction succeed, if the HTTP client
returns a response then `SlackNotifier.Send` returns nil exactly when the status code is
200, and for every other status code `c` (201 and 204 included) the error with the text
"slack returned status code: c"; if the client returns a transport error `e` then `Send`
returns a non-nil error that wraps `e`. -/
theorem slack_send_status (s : SlackNotifier) (w : HTTPWorld) (ctx : Context) (msg : Message)
    (payload : String) (req : Request)
    (hm : w.marshal (buildSlackMessage w.range w.now msg) = Except.ok payload)
    (hn : w.newRequest ctx "POST" s.webhookURL payload = Except.ok req) :
    (∀ resp, w.Do s.client
          { req with header := headerSet req.header "Content-Type" "application/json" }
          = Except.ok resp →
        (s.Send w ctx msg = none ↔ resp.StatusCode = 200) ∧
        (resp.StatusCode ≠ 200 →
          s.Send w ctx msg = some (GoError.errorString
            ("slack returned status code: " ++ fmtD resp.StatusCode)))) ∧
    (∀ e, w.Do s.client
          { req with header := headerSet req.header "Content-Type" "application/json" }
          = Except.error e →
        ∃ e2, s.Send w ctx msg = some e2 ∧ e2.Unwrap = some e ∧
          e2.Error = "failed to send slack notification: " ++ e.Error) := by
  constructor
  · intro resp hdo
    by_cases hc : resp.StatusCode = 200
    · simp [SlackNotifier.Send, hm, hn, hdo, hc, StatusOK]
    · simp [SlackNotifier.Send, hm, hn, hdo, hc, StatusOK]
  · intro e hdo
    refine ⟨GoError.wrapError ("failed to send slack notification: " ++ e.Error) e, ?_, rfl, rfl⟩
    simp [SlackNotifier.Send, hm, hn, hdo, errorfW]

/-! ## Instances -/

/-- C2 at `maxRetries = 3` with a notifier that fails twice and then succeeds: three calls,
nil returned. -/
theorem retry_succeeds_at_attempt_witness :
    ∃ out, (WithRetry (succeedsAt 2) 3 second (10 * second)).Send quiet ctx0 testMsg 3
        = some out ∧ out.err = none ∧ numSends out.trace = 3 :=
  retry_succeeds_at_attempt (succeedsAt 2) 3 2 second (10 * second) quiet ctx0 testMsg 0
    (by decide) (by decide) (fun i hi => by simp [succeedsAt, hi]) (by simp [succeedsAt])
    (fun _ _ => rfl)

/-- C3 at `maxRetries = 3`, with the context cancelled during the wait before attempt 2:
two calls, two waits, `context.Canceled` returned. -/
theorem retry_cancelled_during_wait_witness :
    ∃ out, (WithRetry failing 3 second (10 * second)).Send (cancelledAt 1) ctx0 testMsg 3
        = some out ∧ out.err = some ctxCanceled ∧ numSends out.trace = 2 ∧
        (waits out.trace).length = 2 :=
  retry_cancelled_during_wait failing 3 2 second (10 * second) (cancelledAt 1) ctx0 testMsg
    ctxCanceled 0 (by decide) (by decide) (by decide) (fun _ _ => rfl)
    (fun j _ hj => by simp [cancelledAt]; omega) (fun _ => rfl)

/-- C6 at the out-of-range priority 7. -/
theorem color_for_priority_witness : getColorForPriority 7 = "#3AA3E3" :=
  (color_for_priority 7 listedOrder 0 testMsg).2.2.2.2.1 (Or.inr (by decide))

/-- C7 at the message of `TestSlackMessage_Building`, its two entries visited in reverse
order: each of the keys `Key1` and `Key2` is the title of exactly one field. -/
theorem slack_fields_of_extra_witness :
    ∃ att, (buildSlackMessage reverseOrder 0 testMsg).Attachments = [att] ∧
      att.Fields.length = 2 ∧
      (att.Fields.map slackField.Title).count "Key1" = 1 ∧
      (att.Fields.map slackField.Title).count "Key2" = 1 := by
  obtain ⟨att, h1, h2, _, _, h5⟩ := slack_fields_of_extra reverseOrder 0 testMsg
  exact ⟨att, h1, h2, h5 (by decide) ("Key1", GoValue.str "Value1") (by decide),
    h5 (by decide) ("Key2", GoValue.int 42) (by decide)⟩

/-- C8 against a server that answers 500, 201 and 200, and against an unreachable server. -/
theorem slack_send_status_witness :
    testSlack.Send (serverAnswering 500) ctx0 testMsg
        = some (GoError.errorString ("slack returned status code: " ++ fmtD 500)) ∧
      testSlack.Send (serverAnswering 201) ctx0 testMsg
        = some (GoError.errorString ("slack returned status code: " ++ fmtD 201)) ∧
      testSlack.Send (serverAnswering 200) ctx0 testMsg = none ∧
      ∃ e2, testSlack.Send serverUnreachable ctx0 testMsg = some e2 ∧
        e2.Unwrap = some (GoError.external 7 "dial tcp: connection refused") :=
  ⟨((slack_send_status testSlack (serverAnswering 500) ctx0 testMsg "payload" _ rfl rfl).1
      _ rfl).2 (by decide),
   ((slack_send_status testSlack (serverAnswering 201) ctx0 testMsg "payload" _ rfl rfl).1
      _ rfl).2 (by decide),
   ((slack_send_status testSlack (serverAnswering 200) ctx0 testMsg "payload" _ rfl rfl).1
      _ rfl).1.mpr rfl,
   by
    obtain ⟨e2, h1, h2, _⟩ :=
      (slack_send_status testSlack serverUnreachable ctx0 testMsg "payload" _ rfl rfl).2 _ rfl
    exact ⟨e2, h1, h2⟩⟩

/-- C10 (amended) at initial delay 5s, maximum delay 1s, `maxRetries = 3`, every attempt
failing: the waits are 5s, 1s, 1s. -/
theorem retry_misconfigured_delays_witness :
    ∃ out, (WithRetry failing 3 (5 * second) second).Send quiet ctx0 testMsg 5 = some out ∧
      waits out.trace = [5 * second, second, second] :=
  (retry_misconfigured_delays failing (5 * second) second quiet ctx0 testMsg
    (by decide) (by decide) (by decide)).2 3 0 (by decide) (by decide) (fun _ => rfl)
    (fun _ _ => rfl)

/-! ## The shape of every run -/

/-- More fuel does not change a run that has returned. -/
theorem retryLoop_fuel_mono (r : RetryNotifier) (rt : Runtime) (ctx : Context) (msg : Message)
    (fuel : Nat) (st : RetryState) (out : Outcome)
    (hrun : retryLoop r rt ctx msg fuel st = some out) (extra : Nat) :
    retryLoop r rt ctx msg (fuel + extra) st = some out := by
  induction fuel generalizing st with
  | zero => simp [retryLoop] at hrun
  | succ f ih =>
    have h1 : f + 1 + extra = (f + extra) + 1 := by omega
    rw [h1]
    rw [retryLoop] at hrun ⊢
    split
    · rename_i hle
      rw [if_pos hle] at hrun
      cases hw : waitStep r rt st with
      | inl o =>
        rw [hw] at hrun
        exact hrun
      | inr st1 =>
        rw [hw] at hrun
        dsimp only at hrun ⊢
        cases hsd : r.notifier.Send (numSends st1.trace) ctx msg with
        | none =>
          rw [hsd] at hrun
          exact hrun
        | some e =>
          rw [hsd] at hrun
          exact ih _ hrun
    · rename_i hle
      rw [if_neg hle] at hrun
      exact hrun

/-- From the state reached after `m` failed attempts, with `g` attempts left, the loop
returns within `g + 1` evaluations of its condition, in one of the three ways of
`RunKind`. -/
theorem retryLoop_shape_from (r : RetryNotifier) (rt : Runtime) (ctx : Context) (msg : Message)
    (hR : r.maxRetries < maxInt64) (g : Nat) :
    ∀ (m f : Nat), m + g = (r.maxRetries + 1).toNat →
      (∀ i, i < m → (r.notifier.Send i ctx msg).isSome) →
      (∀ j, j + 1 < m → rt.selectDone j (delayAt r j) = none) →
      ∃ out, retryLoop r rt ctx msg (f + (g + 1)) (stateAfter r ctx msg m) = some out ∧
        RunKind r rt ctx msg out := by
  induction g with
  | zero =>
    intro m f hm hfail hq
    have hgt : r.maxRetries < (m : Int) := by omega
    refine ⟨_, retryLoop_step_exit r rt ctx msg m f hgt, ?_⟩
    have hm2 : m = (r.maxRetries + 1).toNat := by omega
    rw [hm2]
    exact RunKind.exhausted (by rw [← hm2]; exact hfail) (by rw [← hm2]; exact hq)
  | succ g ih =>
    intro m f hm hfail hq
    have hle : (m : Int) ≤ r.maxRetries := by omega
    have hmax : (m : Int) < maxInt64 := by omega
    have hfuel : f + (g + 1 + 1) = (f + (g + 1)) + 1 := by omega
    rw [hfuel]
    -- the wait, when there is one
    have hwait : (∃ k e, m = k + 1 ∧ rt.selectDone k (delayAt r k) = some e) ∨
        (∀ k, k + 1 = m → rt.selectDone k (delayAt r k) = none) := by
      cases m with
      | zero => exact Or.inr (fun k hk => absurd hk (by omega))
      | succ k =>
        cases hsel : rt.selectDone k (delayAt r k) with
        | some e => exact Or.inl ⟨k, e, rfl, hsel⟩
        | none =>
          refine Or.inr (fun j hj => ?_)
          have : j = k := by omega
          rw [this]; exact hsel
    rcases hwait with ⟨k, e, rfl, hsel⟩ | hnone
    · refine ⟨_, retryLoop_step_cancel r rt ctx msg k (f + (g + 1)) e hle hsel, ?_⟩
      exact RunKind.cancelled k e hle hfail (fun j hj => hq j (by omega)) hsel
    · cases hsd : r.notifier.Send m ctx msg with
      | none =>
        refine ⟨_, retryLoop_step_success r rt ctx msg m (f + (g + 1)) hle hsd hnone, ?_⟩
        refine RunKind.success m hle hfail (fun j hj => ?_) hsd
        rcases Nat.lt_or_ge (j + 1) m with h | h
        · exact hq j h
        · exact hnone j (by omega)
      | some e =>
        rw [retryLoop_step_fail r rt ctx msg m (f + (g + 1)) hle hmax (by simp [hsd]) hnone]
        refine ih (m + 1) f (by omega) (fun i hi => ?_) (fun j hj => ?_)
        · rcases Nat.lt_or_ge i m with h | h
          · exact hfail i h
          · have : i = m := by omega
            rw [this]; simp [hsd]
        · rcases Nat.lt_or_ge (j + 1) m with h | h
          · exact hq j h
          · exact hnone j (by omega)

/-- Termination and shape: for `maxRetries < math.MaxInt64`, whatever the wrapped notifier
and the context do, `RetryNotifier.Send` returns within `max (maxRetries + 1) 0 + 1`
evaluations of the loop condition, in one of the three ways of `RunKind`. -/
theorem retry_run_shape (r : RetryNotifier) (rt : Runtime) (ctx : Context) (msg : Message)
    (hR : r.maxRetries < maxInt64) (f : Nat) :
    ∃ out, r.Send rt ctx msg (f + ((r.maxRetries + 1).toNat + 1)) = some out ∧
      RunKind r rt ctx msg out :=
  retryLoop_shape_from r rt ctx msg hR (r.maxRetries + 1).toNat 0 f (by omega)
    (fun i hi => absurd hi (by omega)) (fun j hj => absurd hj (by omega))

/-- Every run that returns, for `maxRetries < math.MaxInt64`, has one of the three shapes of
`RunKind`, whatever the fuel. -/
theorem retry_returned_shape (r : RetryNotifier) (rt : Runtime) (ctx : Context) (msg : Message)
    (hR : r.maxRetries < maxInt64) (fuel : Nat) (out : Outcome)
    (hrun : r.Send rt ctx msg fuel = some out) : RunKind r rt ctx msg out := by
  obtain ⟨out2, h2, hk⟩ := retry_run_shape r rt ctx msg hR fuel
  have h3 := retryLoop_fuel_mono r rt ctx msg fuel _ out hrun ((r.maxRetries + 1).toNat + 1)
  unfold RetryNotifier.Send at h2
  rw [h3] at h2
  simp only [Option.some.injEq] at h2
  rw [h2]
  exact hk

/-! ## What is returned, against what the calls returned -/

/-- The wait block makes no call to the wrapped `Send`, and when it returns it returns an
error. -/
theorem waitStep_numSends (r : RetryNotifier) (rt : Runtime) (st : RetryState) :
    (∀ o, waitStep r rt st = Sum.inl o → o.err ≠ none ∧ numSends o.trace = numSends st.trace) ∧
    (∀ st1, waitStep r rt st = Sum.inr st1 → numSends st1.trace = numSends st.trace) := by
  unfold waitStep
  split
  · split
    · refine ⟨fun o ho => ?_, fun st1 h1 => by simp at h1⟩
      simp only [Sum.inl.injEq] at ho
      subst ho
      simp [numSends_append, numSends]
    · refine ⟨fun o ho => by simp at ho, fun st1 h1 => ?_⟩
      simp only [Sum.inr.injEq] at h1
      subst h1
      simp [numSends_append, numSends]
  · refine ⟨fun o ho => by simp at ho, fun st1 h1 => ?_⟩
    simp only [Sum.inr.injEq] at h1
    subst h1
    rfl

/-- In every run that returns, whatever `maxRetries`, the wrapped notifier and the context:
every call but the last one failed; nil is returned only right after a call that returned
nil; and an error is returned only when every call failed. -/
theorem retryLoop_outcome_calls (r : RetryNotifier) (rt : Runtime) (ctx : Context)
    (msg : Message) (fuel : Nat) (st : RetryState) (out : Outcome)
    (hinv : ∀ i, i < numSends st.trace → (r.notifier.Send i ctx msg).isSome)
    (hrun : retryLoop r rt ctx msg fuel st = some out) :
    (∀ i, i + 1 < numSends out.trace → (r.notifier.Send i ctx msg).isSome) ∧
    (out.err = none → out.trace.getLast? = some (Event.send ctx msg) ∧
      ∃ k, numSends out.trace = k + 1 ∧ r.notifier.Send k ctx msg = none) ∧
    (out.err ≠ none → ∀ i, i < numSends out.trace → (r.notifier.Send i ctx msg).isSome) := by
  induction fuel generalizing st with
  | zero => simp [retryLoop] at hrun
  | succ f ih =>
    rw [retryLoop] at hrun
    split at hrun
    · obtain ⟨hl, hr⟩ := waitStep_numSends r rt st
      cases hw : waitStep r rt st with
      | inl o =>
        rw [hw] at hrun
        simp only [Option.some.injEq] at hrun
        subst hrun
        obtain ⟨he, hn⟩ := hl o hw
        refine ⟨fun i hi => hinv i (by omega), fun h => absurd h he, fun _ i hi => ?_⟩
        exact hinv i (by omega)
      | inr st1 =>
        rw [hw] at hrun
        dsimp only at hrun
        have hn := hr st1 hw
        cases hsd : r.notifier.Send (numSends st1.trace) ctx msg with
        | none =>
          rw [hsd] at hrun
          simp only [Option.some.injEq] at hrun
          subst hrun
          refine ⟨fun i hi => ?_, fun _ => ⟨by simp, numSends st1.trace, ?_, hsd⟩,
            fun h => absurd rfl h⟩
          · simp only [numSends_append, numSends] at hi
            exact hinv i (by omega)
          · simp [numSends_append, numSends]
        | some e =>
          rw [hsd] at hrun
          refine ih _ (fun i hi => ?_) hrun
          simp only [numSends_append, numSends] at hi
          rcases Nat.lt_or_ge i (numSends st1.trace) with h | h
          · exact hinv i (by omega)
          · have : i = numSends st1.trace := by omega
            rw [this, hsd]; rfl
    · simp only [Option.some.injEq] at hrun
      subst hrun
      refine ⟨fun i hi => hinv i ?_, fun h => by simp at h, fun _ i hi => hinv i hi⟩
      dsimp only at hi
      omega

/-- Claim C16: whatever `maxRetries`, the wrapped notifier and the context, in every run of
`RetryNotifier.Send` that returns: nil is returned if and only if the last call made to the
wrapped `Send` returned nil; when nil is returned the last thing the run did is that call
(not a wait); and every call before the last one failed, so no attempt follows a success.
For `maxRetries < math.MaxInt64` the run does return. -/
theorem retry_nil_iff_last_call_nil (n : Notifier) (R : Int) (d dmax : Int) (rt : Runtime)
    (ctx : Context) (msg : Message) :
    (∀ fuel out, (WithRetry n R d dmax).Send rt ctx msg fuel = some out →
      (out.err = none ↔ ∃ k, numSends out.trace = k + 1 ∧ n.Send k ctx msg = none) ∧
      (out.err = none → out.trace.getLast? = some (Event.send ctx msg)) ∧
      (∀ i, i + 1 < numSends out.trace → (n.Send i ctx msg).isSome)) ∧
    (R < maxInt64 → ∀ f, ∃ out,
      (WithRetry n R d dmax).Send rt ctx msg (f + ((R + 1).toNat + 1)) = some out) := by
  constructor
  · intro fuel out hrun
    obtain ⟨h1, h2, h3⟩ := retryLoop_outcome_calls (WithRetry n R d dmax) rt ctx msg fuel _ out
      (fun i hi => absurd hi (by simp [numSends])) hrun
    refine ⟨⟨fun h => (h2 h).2, ?_⟩, fun h => (h2 h).1, h1⟩
    rintro ⟨k, hk, hnil⟩
    by_contra hne
    have := h3 hne k (by omega)
    rw [show (WithRetry n R d dmax).notifier = n from rfl, hnil] at this
    simp at this
  · intro hR f
    obtain ⟨out, h, _⟩ := retry_run_shape (WithRetry n R d dmax) rt ctx msg hR f
    exact ⟨out, h⟩

/-- Claim C18: for every `maxRetries = R < 0`, `RetryNotifier.Send` returns at once (the
loop body is never entered): no call to the wrapped `Send`, no wait, and the non-nil error
`fmt.Errorf("failed after %d retries: %w", R, nil)`, whose text is "failed after R retries: "
followed by the rendering of the nil operand of the verb. -/
theorem retry_negative_never_attempts (n : Notifier) (R : Int) (d dmax : Int) (rt : Runtime)
    (ctx : Context) (msg : Message) (f : Nat) (hR : R < 0) :
    ∃ out, (WithRetry n R d dmax).Send rt ctx msg (f + 1) = some out ∧
      out.trace = [] ∧ numSends out.trace = 0 ∧ waits out.trace = [] ∧
      out.err = some (GoError.errorString
        ("failed after " ++ fmtD R ++ " retries: " ++ "%!w(<nil>)")) ∧
      out.err ≠ none := by
  refine ⟨{ err := some (GoError.errorString
        ("failed after " ++ fmtD R ++ " retries: " ++ "%!w(<nil>)")), trace := [] },
    ?_, rfl, rfl, rfl, rfl, by simp⟩
  unfold RetryNotifier.Send
  rw [retryLoop, if_neg (by simp only [WithRetry]; omega)]
  rfl

/-! ## Cancellation against exhaustion -/

theorem failTrace_succ_head (r : RetryNotifier) (ctx : Context) (msg : Message) (k : Nat) :
    ∃ t, failTrace r ctx msg (k + 1) = Event.send ctx msg :: t := by
  induction k with
  | zero => exact ⟨[], rfl⟩
  | succ k ih =>
    obtain ⟨t, ht⟩ := ih
    exact ⟨t ++ [Event.wait (delayAt r k), Event.send ctx msg], by rw [failTrace, ht]; rfl⟩

/-- Claim C11 as stated fails.  With `maxRetries = 0`, a context that is already cancelled
when `Send` is called and a wrapped call that returns the error `boom`, `Send` makes
attempt 0 and returns the exhaustion error "failed after 0 retries: boom", not the
cancellation error.  With `maxRetries = 1` and a context cancelled once the first wait has
elapsed, that is during attempt 1, the final one, `Send` returns the exhaustion error
"failed after 1 retries: boom" as well. -/
theorem retry_cancellation_not_given_precedence :
    (∃ out, (WithRetry failing 0 second (10 * second)).Send cancelledOnEntry ctx0 testMsg 2
        = some out ∧
      out.err = some (GoError.wrapError "failed after 0 retries: boom"
        (GoError.external 0 "boom")) ∧
      out.err ≠ some ctxCanceled) ∧
    (∃ out, (WithRetry failing 1 second (10 * second)).Send (cancelledAt 1) ctx0 testMsg 3
        = some out ∧
      (cancelledAt 1).selectDone 1 (10 * second) = some ctxCanceled ∧
      out.err = some (GoError.wrapError "failed after 1 retries: boom"
        (GoError.external 1 "boom")) ∧
      out.err ≠ some ctxCanceled) := by
  have p0 := retryLoop_fail_prefix (WithRetry failing 0 second (10 * second))
    cancelledOnEntry ctx0 testMsg 1 1 (by decide) (by decide) (fun _ _ => rfl)
    (fun k hk => absurd hk (by omega))
  have h0 := p0.trans
    (retryLoop_step_exit (WithRetry failing 0 second (10 * second)) cancelledOnEntry ctx0
      testMsg 1 0 (by decide))
  have p1 := retryLoop_fail_prefix (WithRetry failing 1 second (10 * second))
    (cancelledAt 1) ctx0 testMsg 2 1 (by decide) (by decide) (fun _ _ => rfl)
    (fun k hk => by
      have : k = 0 := by omega
      subst this
      rfl)
  have h1 := p1.trans
    (retryLoop_step_exit (WithRetry failing 1 second (10 * second)) (cancelledAt 1) ctx0
      testMsg 2 0 (by decide))
  exact ⟨⟨_, h0, by decide, by decide⟩, ⟨_, h1, rfl, by decide, by decide⟩⟩

/-- Claim C11, amended: for `0 ≤ maxRetries = R < math.MaxInt64`, whatever the wrapped
notifier and the context do, `RetryNotifier.Send` returns, and it consults the context only
in the `select` of a wait.  The run ends in one of the three ways of `RunKind`, and
* attempt 0 is made first, whatever the state of the context;
* if the attempts `0 .. k` fail (`k < R`), the waits before attempts `1 .. k` elapse and the
  wait before attempt `k + 1` is cut short, then `ctx.Err()` itself is returned, after
  `k + 1` calls and `k + 1` waits, the last thing done being that wait;
* if the attempts `0 .. R` all fail and no wait is cut short, then the exhaustion error is
  returned, "failed after R retries: " followed by the text of the error of attempt `R`,
  which it wraps, whatever else happened to the context (always so for `R = 0`);
* if the attempts `0 .. k-1` fail, no wait is cut short and attempt `k ≤ R` succeeds, then
  nil is returned after `k + 1` calls. -/
theorem retry_cancellation_only_in_waits (n : Notifier) (R : Nat) (d dmax : Int)
    (rt : Runtime) (ctx : Context) (msg : Message) (f : Nat) (hR : (R : Int) < maxInt64) :
    ∃ out, (WithRetry n R d dmax).Send rt ctx msg (f + (R + 2)) = some out ∧
      RunKind (WithRetry n R d dmax) rt ctx msg out ∧
      out.trace.head? = some (Event.send ctx msg) ∧
      (∀ k e, k < R →
        (∀ i, i ≤ k → (n.Send i ctx msg).isSome) →
        (∀ j, j < k → rt.selectDone j (delayAt (WithRetry n R d dmax) j) = none) →
        rt.selectDone k (delayAt (WithRetry n R d dmax) k) = some e →
        out.err = some e ∧ numSends out.trace = k + 1 ∧ (waits out.trace).length = k + 1 ∧
          out.trace.getLast? = some (Event.wait (delayAt (WithRetry n R d dmax) k))) ∧
      ((∀ i, i ≤ R → (n.Send i ctx msg).isSome) →
        (∀ j, j < R → rt.selectDone j (delayAt (WithRetry n R d dmax) j) = none) →
        ∃ e, n.Send R ctx msg = some e ∧
          out.err = some (GoError.wrapError
            ("failed after " ++ fmtD (R : Int) ++ " retries: " ++ e.Error) e) ∧
          numSends out.trace = R + 1 ∧ (waits out.trace).length = R) ∧
      (∀ k, k ≤ R →
        (∀ i, i < k → (n.Send i ctx msg).isSome) →
        (∀ j, j < k → rt.selectDone j (delayAt (WithRetry n R d dmax) j) = none) →
        n.Send k ctx msg = none →
        out.err = none ∧ numSends out.trace = k + 1 ∧ (waits out.trace).length = k) := by
  have hM : ((WithRetry n R d dmax).maxRetries + 1).toNat = R + 1 := by
    simp only [WithRetry]; omega
  have hmr : (WithRetry n R d dmax).maxRetries = (R : Int) := rfl
  obtain ⟨out, hrun, hkind⟩ := retry_run_shape (WithRetry n R d dmax) rt ctx msg hR f
  rw [hM] at hrun
  refine ⟨out, hrun, hkind, ?_, ?_, ?_, ?_⟩
  · -- attempt 0 comes first
    cases hkind with
    | success k hk hfail hq hsend =>
      obtain ⟨t, ht⟩ := failTrace_succ_head (WithRetry n R d dmax) ctx msg k
      simp only [ht, List.head?_cons]
    | cancelled k e hk hfail hq hdone =>
      obtain ⟨t, ht⟩ := failTrace_succ_head (WithRetry n R d dmax) ctx msg k
      simp only [ht, List.cons_append, List.head?_cons]
    | exhausted hfail hq =>
      obtain ⟨t, ht⟩ := failTrace_succ_head (WithRetry n R d dmax) ctx msg R
      simp only [hM, ht, List.head?_cons]
  · -- a wait cut short
    intro k e hk hfail hq hdone
    have hF : f + (R + 1 + 1) = (f + (R - k) + 1) + (k + 1) := by omega
    have hp := retryLoop_fail_prefix (WithRetry n R d dmax) rt ctx msg (k + 1)
      (f + (R - k) + 1) (by rw [hmr]; omega) (by omega) (fun i hi => hfail i (by omega))
      (fun j hj => hq j (by omega))
    have hc := retryLoop_step_cancel (WithRetry n R d dmax) rt ctx msg k (f + (R - k)) e
      (by rw [hmr]; omega) hdone
    unfold RetryNotifier.Send at hrun
    rw [hF] at hrun
    have heq : some out = some _ := hrun.symm.trans (hp.trans hc)
    simp only [Option.some.injEq] at heq
    subst heq
    refine ⟨rfl, ?_, ?_, ?_⟩
    · simp [numSends_append, numSends_failTrace, numSends]
    · simp [waits_append, waits_failTrace_length, waits]
    · simp
  · -- every attempt fails, no wait is cut short
    intro hfail hq
    obtain ⟨e, he⟩ := Option.isSome_iff_exists.mp (hfail R (by omega))
    have hF : f + (R + 1 + 1) = (f + 1) + (R + 1) := by omega
    have hp := retryLoop_fail_prefix (WithRetry n R d dmax) rt ctx msg (R + 1) (f + 1)
      (by rw [hmr]; omega) (by omega) (fun i hi => hfail i (by omega))
      (fun j hj => hq j (by omega))
    have hx := retryLoop_step_exit (WithRetry n R d dmax) rt ctx msg (R + 1) f
      (by rw [hmr]; omega)
    unfold RetryNotifier.Send at hrun
    rw [hF] at hrun
    have heq : some out = some _ := hrun.symm.trans (hp.trans hx)
    simp only [Option.some.injEq] at heq
    subst heq
    refine ⟨e, he, ?_, ?_, ?_⟩
    · simp only [WithRetry, lastErrAfter, he, errorfW]
    · exact numSends_failTrace _ _ _ _
    · simp [waits_failTrace_length]
  · -- an attempt succeeds
    intro k hk hfail hq hsend
    have hF : f + (R + 1 + 1) = (f + (R + 1 - k) + 1) + k := by omega
    have hp := retryLoop_fail_prefix (WithRetry n R d dmax) rt ctx msg k
      (f + (R + 1 - k) + 1) (by rw [hmr]; omega) (by omega) hfail
      (fun j hj => hq j (by omega))
    have hs := retryLoop_step_success (WithRetry n R d dmax) rt ctx msg k (f + (R + 1 - k))
      (by rw [hmr]; omega) hsend (fun j hj => hq j (by omega))
    unfold RetryNotifier.Send at hrun
    rw [hF] at hrun
    have heq : some out = some _ := hrun.symm.trans (hp.trans hs)
    simp only [Option.some.injEq] at heq
    subst heq
    refine ⟨rfl, numSends_failTrace _ _ _ _, ?_⟩
    simp [waits_failTrace_length]

/-! ## How many calls and waits -/

/-- Supporting result for C17: for `0 ≤ maxRetries = R < math.MaxInt64`, whatever the
wrapped notifier and the context do, `RetryNotifier.Send` returns, having made at least one
and at most `R + 1` calls to the wrapped `Send` and started at most `R` waits, never more
waits than calls; the run starts with attempt 0, and wait number `j` is started only after
call `j` has failed. -/
theorem retry_call_bounds_below_maxInt (n : Notifier) (R : Nat) (d dmax : Int)
    (rt : Runtime) (ctx : Context) (msg : Message) (f : Nat) (hR : (R : Int) < maxInt64) :
    ∃ out, (WithRetry n R d dmax).Send rt ctx msg (f + (R + 2)) = some out ∧
      1 ≤ numSends out.trace ∧ numSends out.trace ≤ R + 1 ∧
      (waits out.trace).length ≤ R ∧
      (waits out.trace).length ≤ numSends out.trace ∧
      out.trace.head? = some (Event.send ctx msg) ∧
      (∀ j, j < (waits out.trace).length → (n.Send j ctx msg).isSome) := by
  have hM : ((WithRetry n R d dmax).maxRetries + 1).toNat = R + 1 := by
    simp only [WithRetry]; omega
  obtain ⟨out, hrun, hk⟩ := retry_run_shape (WithRetry n R d dmax) rt ctx msg hR f
  rw [hM] at hrun
  refine ⟨out, hrun, ?_⟩
  cases hk with
  | success k hk hfail hq hsend =>
    simp only [WithRetry] at hk
    obtain ⟨t, ht⟩ := failTrace_succ_head (WithRetry n R d dmax) ctx msg k
    refine ⟨?_, ?_, ?_, ?_, ?_, ?_⟩
    · simp [numSends_failTrace]
    · simp only [numSends_failTrace]; omega
    · simp only [waits_failTrace_length]; omega
    · simp only [waits_failTrace_length, numSends_failTrace]; omega
    · simp only [ht, List.head?_cons]
    · intro j hj
      simp only [waits_failTrace_length] at hj
      exact hfail j (by omega)
  | cancelled k e hk hfail hq hdone =>
    simp only [WithRetry] at hk
    obtain ⟨t, ht⟩ := failTrace_succ_head (WithRetry n R d dmax) ctx msg k
    have hw : (waits (failTrace (WithRetry n R d dmax) ctx msg (k + 1) ++
        [Event.wait (delayAt (WithRetry n R d dmax) k)])).length = k + 1 := by
      simp [waits_append, waits_failTrace_length, waits]
    have hs : numSends (failTrace (WithRetry n R d dmax) ctx msg (k + 1) ++
        [Event.wait (delayAt (WithRetry n R d dmax) k)]) = k + 1 := by
      simp [numSends_append, numSends_failTrace, numSends]
    refine ⟨?_, ?_, ?_, ?_, ?_, ?_⟩
    · simp only [hs]; omega
    · simp only [hs]; omega
    · simp only [hw]; omega
    · simp only [hw, hs]; omega
    · simp only [ht, List.cons_append, List.head?_cons]
    · intro j hj
      simp only [hw] at hj
      exact hfail j hj
  | exhausted hfail hq =>
    rw [hM] at hfail
    simp only [hM]
    obtain ⟨t, ht⟩ := failTrace_succ_head (WithRetry n R d dmax) ctx msg R
    refine ⟨?_, ?_, ?_, ?_, ?_, ?_⟩
    · simp [numSends_failTrace]
    · simp [numSends_failTrace]
    · simp [waits_failTrace_length]
    · simp [waits_failTrace_length, numSends_failTrace]
    · simp only [ht, List.head?_cons]
    · intro j hj
      simp only [waits_failTrace_length] at hj
      exact hfail j (by omega)

/-- With `maxRetries = math.MaxInt64`, after `R + 1 = 2^63` failed attempts the counter
wraps to `math.MinInt64`; the loop goes on, without a wait since the counter is negative,
and makes a further call. -/
theorem retryLoop_counter_wraps (r : RetryNotifier) (rt : Runtime) (ctx : Context)
    (msg : Message) (k f : Nat)
    (hk : ((k + 1 : Nat) : Int) = maxInt64) (hR : r.maxRetries = maxInt64)
    (hfail : ∀ i, i < k + 2 → (r.notifier.Send i ctx msg).isSome)
    (hsucc : r.notifier.Send (k + 2) ctx msg = none)
    (hq : ∀ j, j < k + 1 → rt.selectDone j (delayAt r j) = none) :
    ∃ out, retryLoop r rt ctx msg (f + 2 + (k + 1)) (stateAfter r ctx msg 0) = some out ∧
      out.err = none ∧ numSends out.trace = k + 3 := by
  refine ⟨{ err := none,
            trace := failTrace r ctx msg (k + 1) ++
              [Event.wait (delayAt r k), Event.send ctx msg, Event.send ctx msg] }, ?_, rfl,
    by simp [numSends_append, numSends_failTrace, numSends]⟩
  have hpre := retryLoop_fail_prefix r rt ctx msg (k + 1) (f + 2) (by rw [hR]; omega)
    (by omega) (fun i hi => hfail i (by omega)) (fun j hj => hq j (by omega))
  rw [hpre]
  obtain ⟨e, he⟩ := Option.isSome_iff_exists.mp (hfail (k + 1) (by omega))
  have hwrap : wrapInt64 (((k + 1 : Nat) : Int) + 1) = minInt64 := by
    rw [hk]; decide
  have hneg : ¬ (0 : Int) < minInt64 := by decide
  have hlt : minInt64 ≤ r.maxRetries := by rw [hR]; decide
  show retryLoop r rt ctx msg ((f + 1) + 1) (stateAfter r ctx msg (k + 1)) = _
  rw [retryLoop, if_pos (by simp only [stateAfter]; rw [hR]; omega),
    waitStep_stateAfter_succ_none r rt ctx msg k (hq k (by omega))]
  simp only [numSends_append, numSends_failTrace, numSends, Nat.add_zero, he, hwrap]
  rw [retryLoop, if_pos hlt]
  simp only [waitStep, hneg, if_false, numSends_append, numSends_failTrace, numSends,
    Nat.add_zero, hsucc, List.append_assoc, List.singleton_append]
  rfl

/-- Claim C17, at `maxRetries = math.MaxInt64` (9223372036854775807): with a wrapped
notifier that fails on calls `0 .. 2^63 - 1` and succeeds on call `2^63`, and no
cancellation, `RetryNotifier.Send` returns nil after `R + 2` calls to the wrapped `Send`;
the claim allows at most `R + 1`. -/
theorem retry_maxInt64_extra_call :
    ∃ out, (WithRetry (succeedsAt 9223372036854775808) maxInt64 second (10 * second)).Send
        quiet ctx0 testMsg 9223372036854775809 = some out ∧
      out.err = none ∧ (numSends out.trace : Int) = maxInt64 + 2 := by
  obtain ⟨out, h, he, hn⟩ := retryLoop_counter_wraps
    (WithRetry (succeedsAt 9223372036854775808) maxInt64 second (10 * second)) quiet ctx0
    testMsg 9223372036854775806 0 (by decide) rfl
    (fun i hi => by
      have h2 : i < 9223372036854775808 := by omega
      simp [WithRetry, succeedsAt, h2])
    (by simp [WithRetry, succeedsAt]) (fun _ _ => rfl)
  refine ⟨out, h, he, ?_⟩
  rw [hn]
  decide

/-! ## The payload of `buildSlackMessage` and its JSON encoding -/

/-- Claim C12: for every message, `buildSlackMessage` returns a payload with exactly one
attachment, whose `Title` is the title of the message, `TitleLink` its `URI` and `Text` its
`Content`; for a message with priority `PriorityUrgent` and 2 `Extra` entries that
attachment has the colour "#ff0000" and exactly 2 fields. -/
theorem slack_single_attachment (rg : MapRange) (now : Int) (msg : Message) :
    ∃ att, (buildSlackMessage rg now msg).Attachments = [att] ∧
      (buildSlackMessage rg now msg).Attachments.length = 1 ∧
      att.Title = msg.Title ∧ att.TitleLink = msg.URI ∧ att.Text = msg.Content ∧
      (msg.Priority = PriorityUrgent → msg.Extra.length = 2 →
        att.Color = "#ff0000" ∧ att.Fields.length = 2) := by
  refine ⟨_, by rw [buildSlackMessage_eq], by rw [buildSlackMessage_eq]; rfl, rfl, rfl, rfl, ?_⟩
  intro hp hlen
  refine ⟨?_, ?_⟩
  · show getColorForPriority msg.Priority = "#ff0000"
    rw [hp]; rfl
  · show ((rg.visit msg.Extra).map extraField).length = 2
    rw [List.length_map, (rg.perm msg.Extra).length_eq, hlen]

/-- Claim C13 as stated fails: for the message of `TestSlackMessage_Building` built at unix
time 1700000000, the keys of the JSON object of the attachment are `color`, `title`,
`title_link`, `text`, `ts`, `fields`: the timestamp is written under `ts`, which is not
among the keys the claim allows, and there is no key `timestamp`. -/
theorem slack_timestamp_key_is_ts :
    (buildSlackMessage listedOrder 1700000000 testMsg).Attachments.map
        (fun a => a.toJSON.keys) = [["color", "title", "title_link", "text", "ts", "fields"]] ∧
      "ts" ∉ claimedAttachmentKeys ∧
      "timestamp" ∉ ["color", "title", "title_link", "text", "ts", "fields"] := by
  refine ⟨?_, by decide, by decide⟩
  rw [buildSlackMessage_eq]
  decide

theorem getColorForPriority_ne_empty (p : Priority) : getColorForPriority p ≠ "" := by
  unfold getColorForPriority
  split_ifs <;> decide

/-- The members written for the attachment of `buildSlackMessage`, in terms of the message:
`color` always, `footer` never, the others unless their value is empty or zero. -/
theorem attachment_members (rg : MapRange) (now : Int) (msg : Message) :
    (slackAttachment.toJSON
      { Color := getColorForPriority msg.Priority, Title := msg.Title, TitleLink := msg.URI,
        Text := msg.Content, Footer := "", Timestamp := now,
        Fields := (rg.visit msg.Extra).map extraField }).members =
      [("color", JSON.str (getColorForPriority msg.Priority))] ++
      (if msg.Title = "" then [] else [("title", JSON.str msg.Title)]) ++
      (if msg.URI = "" then [] else [("title_link", JSON.str msg.URI)]) ++
      (if msg.Content = "" then [] else [("text", JSON.str msg.Content)]) ++
      (if now = 0 then [] else [("ts", JSON.num now)]) ++
      (if msg.Extra.length = 0 then []
       else [("fields", JSON.arr (((rg.visit msg.Extra).map extraField).map
              slackField.toJSON))]) := by
  have hlen : ((rg.visit msg.Extra).map extraField).length = msg.Extra.length := by
    rw [List.length_map, (rg.perm msg.Extra).length_eq]
  simp only [slackAttachment.toJSON, JSON.members, if_neg (getColorForPriority_ne_empty _), hlen,
    if_true, List.append_nil]

/-- The keys written for the attachment of `buildSlackMessage`, in terms of the message. -/
theorem attachment_keys (rg : MapRange) (now : Int) (msg : Message) :
    (slackAttachment.toJSON
      { Color := getColorForPriority msg.Priority, Title := msg.Title, TitleLink := msg.URI,
        Text := msg.Content, Footer := "", Timestamp := now,
        Fields := (rg.visit msg.Extra).map extraField }).keys =
      ["color"] ++ (if msg.Title = "" then [] else ["title"]) ++
      (if msg.URI = "" then [] else ["title_link"]) ++
      (if msg.Content = "" then [] else ["text"]) ++
      (if now = 0 then [] else ["ts"]) ++
      (if msg.Extra.length = 0 then [] else ["fields"]) := by
  rw [JSON.keys, attachment_members]
  simp only [List.map_append, apply_ite (List.map Prod.fst), List.map_cons, List.map_nil]

/-- Claim C13, amended: for every message, the JSON object that `SlackNotifier.Send`
serializes has the one member `attachments`, an array of one object that uses only the keys
`color`, `title`, `title_link`, `text`, `ts` and `fields`.  The unix-seconds timestamp set
by `buildSlackMessage` is written under the key `ts`, never under `timestamp`, and each
element of `fields` has exactly the keys `title`, `value` and `short`.  A key is written
exactly when its value is not empty or zero: `color` always, `title`, `title_link` and
`text` when the title, the URI and the content of the message are not empty, `ts` when the
time is not 0, `fields` when the message has an extra entry; `footer` never. -/
theorem slack_attachment_json_keys (rg : MapRange) (now : Int) (msg : Message) :
    ∃ att, (buildSlackMessage rg now msg).Attachments = [att] ∧
      (buildSlackMessage rg now msg).toJSON =
        JSON.obj [("attachments", JSON.arr [att.toJSON])] ∧
      att.toJSON.members =
        [("color", JSON.str (getColorForPriority msg.Priority))] ++
        (if msg.Title = "" then [] else [("title", JSON.str msg.Title)]) ++
        (if msg.URI = "" then [] else [("title_link", JSON.str msg.URI)]) ++
        (if msg.Content = "" then [] else [("text", JSON.str msg.Content)]) ++
        (if now = 0 then [] else [("ts", JSON.num now)]) ++
        (if msg.Extra.length = 0 then []
         else [("fields", JSON.arr (att.Fields.map slackField.toJSON))]) ∧
      (∀ k ∈ att.toJSON.keys, k ∈ attachmentKeys) ∧
      "timestamp" ∉ att.toJSON.keys ∧
      "footer" ∉ att.toJSON.keys ∧
      "color" ∈ att.toJSON.keys ∧
      ("title" ∈ att.toJSON.keys ↔ msg.Title ≠ "") ∧
      ("title_link" ∈ att.toJSON.keys ↔ msg.URI ≠ "") ∧
      ("text" ∈ att.toJSON.keys ↔ msg.Content ≠ "") ∧
      ("ts" ∈ att.toJSON.keys ↔ now ≠ 0) ∧
      ("fields" ∈ att.toJSON.keys ↔ msg.Extra ≠ []) ∧
      (now ≠ 0 → ("ts", JSON.num now) ∈ att.toJSON.members) ∧
      att.Fields.length = msg.Extra.length ∧
      (∀ fj ∈ att.Fields.map slackField.toJSON, fj.keys = ["title", "value", "short"]) := by
  have hm := attachment_members rg now msg
  have hlen : ((rg.visit msg.Extra).map extraField).length = msg.Extra.length := by
    rw [List.length_map, (rg.perm msg.Extra).length_eq]
  have hex : msg.Extra.length = 0 ↔ msg.Extra = [] := List.length_eq_zero
  have hkeys := attachment_keys rg now msg
  refine ⟨_, by rw [buildSlackMessage_eq], by rw [buildSlackMessage_eq]; rfl, hm,
    ?_, ?_, ?_, ?_, ?_, ?_, ?_, ?_, ?_, ?_, hlen, ?_⟩
  · intro k hk
    rw [hkeys] at hk
    simp only [attachmentKeys]
    simp only [List.mem_append, List.mem_singleton] at hk
    rcases hk with ((((h | h) | h) | h) | h) | h
    · simp [h]
    · split_ifs at h
      · simp at h
      · simp [List.mem_singleton.mp h]
    · split_ifs at h
      · simp at h
      · simp [List.mem_singleton.mp h]
    · split_ifs at h
      · simp at h
      · simp [List.mem_singleton.mp h]
    · split_ifs at h
      · simp at h
      · simp [List.mem_singleton.mp h]
    · split_ifs at h
      · simp at h
      · simp [List.mem_singleton.mp h]
  · rw [hkeys]
    split_ifs <;> decide
  · rw [hkeys]
    split_ifs <;> decide
  · rw [hkeys]
    simp
  · rw [hkeys]
    by_cases h : msg.Title = ""
    · simp only [h, if_true, ne_eq, not_true_eq_false, iff_false]
      split_ifs <;> decide
    · simp only [h, if_false, ne_eq, not_false_eq_true, iff_true]
      simp
  · rw [hkeys]
    by_cases h : msg.URI = ""
    · simp only [h, if_true, ne_eq, not_true_eq_false, iff_false]
      split_ifs <;> decide
    · simp only [h, if_false, ne_eq, not_false_eq_true, iff_true]
      simp
  · rw [hkeys]
    by_cases h : msg.Content = ""
    · simp only [h, if_true, ne_eq, not_true_eq_false, iff_false]
      split_ifs <;> decide
    · simp only [h, if_false, ne_eq, not_false_eq_true, iff_true]
      simp
  · rw [hkeys]
    by_cases h : now = 0
    · simp only [h, if_true, ne_eq, not_true_eq_false, iff_false]
      split_ifs <;> decide
    · simp only [h, if_false, ne_eq, not_false_eq_true, iff_true]
      simp
  · rw [hkeys, ne_eq, ← hex]
    by_cases h : msg.Extra.length = 0
    · simp only [h, if_true, ne_eq, not_true_eq_false, iff_false]
      split_ifs <;> decide
    · simp only [h, if_false, ne_eq, not_false_eq_true, iff_true]
      simp
  · intro hnow
    rw [hm, if_neg hnow]
    simp
  · intro fj hfj
    obtain ⟨f, _, rfl⟩ := List.mem_map.mp hfj
    rfl

/-! ## The records of the logging decorator -/

/-- Claim C14: for every wrapped notifier and message, `LoggingNotifier.Send` does three
things in this order: it logs "Sending notification via N: Title=T, Priority=P" where `N` is
what `Name()` of the notifier it wraps returns, `T` the title and `P` the priority as a
number; it calls the wrapped `Send` once; it logs the success record if that call returned
nil and otherwise the failure record with the text of the error.  These are its only two
log records.  Around a retry decorator the name logged is "Retry", whatever notifier the
retry decorator itself wraps, and never the name "Logging" of `LoggingNotifier` itself. -/
theorem logging_two_records (l : LoggingNotifier) (clk : Clock) (i : Nat) (ctx : Context)
    (msg : Message) :
    (l.Send clk i ctx msg).trace =
      [Event.log l.logger ("Sending notification via " ++ l.notifier.Name ++ ": Title=" ++
          msg.Title ++ ", Priority=" ++ fmtD msg.Priority),
       Event.send ctx msg,
       Event.log l.logger
        (match l.notifier.Send i ctx msg with
         | none =>
           "Notification sent successfully (duration: " ++ clk.durationString clk.since ++ ")"
         | some e =>
           "Notification failed: " ++ e.Error ++ " (duration: " ++
             clk.durationString clk.since ++ ")")] ∧
    (logLines (l.Send clk i ctx msg).trace).length = 2 ∧
    numSends (l.Send clk i ctx msg).trace = 1 ∧
    (∀ (inner : Notifier) (outcomes : Nat → Option GoError) (lg : Option Logger),
      (logLines ((WithLogging (retryAsNotifier inner outcomes) lg).Send clk i ctx msg).trace).head?
        = some ("Sending notification via Retry: Title=" ++ msg.Title ++ ", Priority=" ++
            fmtD msg.Priority)) := by
  refine ⟨?_, ?_, ?_, ?_⟩
  · cases h : l.notifier.Send i ctx msg <;> simp [LoggingNotifier.Send, h]
  · cases h : l.notifier.Send i ctx msg <;> simp [LoggingNotifier.Send, h, logLines]
  · cases h : l.notifier.Send i ctx msg <;> simp [LoggingNotifier.Send, h, numSends]
  · intro inner outcomes lg
    cases lg <;> rfl

/-! ## Construction of the Slack notifier -/

theorem foldl_options_keep (opts : List ConfigOption) (c : Config)
    (h : ∀ o ∈ opts, ∀ c2 : Config, (o c2).Timeout = c2.Timeout) :
    (opts.foldl (fun c opt => opt c) c).Timeout = c.Timeout := by
  induction opts generalizing c with
  | nil => rfl
  | cons o t ih =>
    rw [List.foldl_cons, ih _ (fun o2 ho2 => h o2 (List.mem_cons_of_mem _ ho2))]
    exact h o (List.mem_cons_self _ _) c

theorem foldl_options_last (pre post : List ConfigOption) (t : Int) (c : Config)
    (h : ∀ o ∈ post, ∀ c2 : Config, (o c2).Timeout = c2.Timeout) :
    ((pre ++ WithTimeout t :: post).foldl (fun c opt => opt c) c).Timeout = t := by
  rw [List.foldl_append, List.foldl_cons, foldl_options_keep post _ h]
  rfl

/-- Claim C15: for every webhook URL and every list of options, `NewSlackNotifier` returns
a notifier with the given URL whose `config.Timeout` and whose HTTP client `Timeout` are
equal; they are 10 seconds when no option of the list changes the timeout (no `WithTimeout`
in the list), and the argument of the last `WithTimeout` of the list otherwise, the options
being applied in order; in particular for a list of `WithTimeout` options only. -/
theorem slack_notifier_timeout (url : String) (opts : List ConfigOption) :
    (NewSlackNotifier url opts).webhookURL = url ∧
    (NewSlackNotifier url opts).client.Timeout = (NewSlackNotifier url opts).config.Timeout ∧
    ((∀ o ∈ opts, ∀ c : Config, (o c).Timeout = c.Timeout) →
      (NewSlackNotifier url opts).config.Timeout = 10 * second) ∧
    (∀ (pre post : List ConfigOption) (t : Int), opts = pre ++ WithTimeout t :: post →
      (∀ o ∈ post, ∀ c : Config, (o c).Timeout = c.Timeout) →
      (NewSlackNotifier url opts).config.Timeout = t) ∧
    (∀ ts : List Int, opts = ts.map WithTimeout →
      (NewSlackNotifier url opts).config.Timeout = ts.getLast?.getD (10 * second)) := by
  refine ⟨rfl, rfl, ?_, ?_, ?_⟩
  · intro h
    exact foldl_options_keep opts _ h
  · intro pre post t hopts h
    subst hopts
    exact foldl_options_last pre post t _ h
  · intro ts hopts
    subst hopts
    rcases List.eq_nil_or_concat ts with rfl | ⟨init, t, rfl⟩
    · rfl
    · have h := foldl_options_last (init.map WithTimeout) [] t { Timeout := 10 * 1000000000 }
        (fun o ho => absurd ho (List.not_mem_nil o))
      have hl : (init ++ [t]).getLast?.getD (10 * second) = t := by simp
      simp only [List.concat_eq_append, List.map_append, List.map_cons, List.map_nil]
      rw [hl]
      exact h

/-! ## Further instances -/

/-- C11 (amended) at `maxRetries = 3`, every attempt failing and the context cancelled
during the second wait (the first one elapses): attempt 0 is made first, two calls and two
waits are made, and `context.Canceled` itself is returned. -/
theorem retry_cancellation_only_in_waits_witness :
    ∃ out, (WithRetry failing 3 second (10 * second)).Send (cancelledAt 1) ctx0 testMsg 5
        = some out ∧
      out.trace.head? = some (Event.send ctx0 testMsg) ∧
      out.err = some ctxCanceled ∧ numSends out.trace = 2 ∧ (waits out.trace).length = 2 := by
  obtain ⟨out, hrun, _, hhead, hcancel, _, _⟩ :=
    retry_cancellation_only_in_waits failing 3 second (10 * second) (cancelledAt 1) ctx0
      testMsg 0 (by decide)
  obtain ⟨h1, h2, h3, _⟩ := hcancel 1 ctxCanceled (by decide) (fun _ _ => rfl)
    (fun j hj => by
      have : j = 0 := by omega
      subst this
      rfl)
    rfl
  exact ⟨out, hrun, hhead, h1, h2, h3⟩

/-- C12 at the message of `TestSlackMessage_Building`. -/
theorem slack_single_attachment_witness :
    ∃ att, (buildSlackMessage reverseOrder 0 testMsg).Attachments = [att] ∧
      att.Color = "#ff0000" ∧ att.Fields.length = 2 := by
  obtain ⟨att, h1, _, _, _, _, h6⟩ := slack_single_attachment reverseOrder 0 testMsg
  exact ⟨att, h1, h6 rfl rfl⟩

/-- C13 (amended) at the message of `TestSlackMessage_Building`, built at unix time
1700000000: the timestamp is the member `ts`, there is no key `timestamp`, and the
keys `title` and `fields` are written since the title and the extra mapping are not
empty. -/
theorem slack_attachment_json_keys_witness :
    ∃ att, (buildSlackMessage listedOrder 1700000000 testMsg).Attachments = [att] ∧
      ("ts", JSON.num 1700000000) ∈ att.toJSON.members ∧
      "timestamp" ∉ att.toJSON.keys ∧ "ts" ∈ att.toJSON.keys ∧
      "title" ∈ att.toJSON.keys ∧ "fields" ∈ att.toJSON.keys := by
  obtain ⟨att, h1, _, _, _, h5, _, _, h8, _, _, h11, h12, h13, _, _⟩ :=
    slack_attachment_json_keys listedOrder 1700000000 testMsg
  exact ⟨att, h1, h13 (by decide), h5, h11.mpr (by decide), h8.mpr (by decide),
    h12.mpr (by decide)⟩

/-- C15 at the option list of `TestSlackNotifier_Send`, at a list of two timeouts and at
the empty list. -/
theorem slack_notifier_timeout_witness :
    (NewSlackNotifier "http://127.0.0.1:8080" [WithTimeout second]).client.Timeout = second ∧
    (NewSlackNotifier "http://127.0.0.1:8080"
      [WithTimeout second, WithTimeout (5 * second)]).config.Timeout = 5 * second ∧
    (NewSlackNotifier "http://127.0.0.1:8080" []).config.Timeout = 10 * second :=
  ⟨(slack_notifier_timeout "http://127.0.0.1:8080" [WithTimeout second]).2.1.trans
      ((slack_notifier_timeout "http://127.0.0.1:8080" [WithTimeout second]).2.2.2.2
        [second] rfl),
   (slack_notifier_timeout "http://127.0.0.1:8080"
      [WithTimeout second, WithTimeout (5 * second)]).2.2.2.1 [WithTimeout second] []
      (5 * second) rfl (fun o ho => absurd ho (List.not_mem_nil o)),
   (slack_notifier_timeout "http://127.0.0.1:8080" []).2.2.1
      (fun o ho => absurd ho (List.not_mem_nil o))⟩

/-- C16 at `maxRetries = 2` with a notifier that fails once and then succeeds: nil is
returned, and the last of the two calls returned nil. -/
theorem retry_nil_iff_last_call_nil_witness :
    ∃ out, (WithRetry (succeedsAt 1) 2 second (10 * second)).Send quiet ctx0 testMsg 3
        = some out ∧
      (out.err = none ↔
        ∃ k, numSends out.trace = k + 1 ∧ (succeedsAt 1).Send k ctx0 testMsg = none) ∧
      out.err = none ∧ numSends out.trace = 2 := by
  have hrun : (WithRetry (succeedsAt 1) 2 second (10 * second)).Send quiet ctx0 testMsg 3 =
      some { err := none,
             trace := [Event.send ctx0 testMsg, Event.wait second, Event.send ctx0 testMsg] } := by
    decide
  exact ⟨_, hrun,
    ((retry_nil_iff_last_call_nil (succeedsAt 1) 2 second (10 * second) quiet ctx0
      testMsg).1 3 _ hrun).1, rfl, rfl⟩

/-- C18 at `maxRetries = -1`: no call, no wait, and the error with the text
"failed after -1 retries: %!w(<nil>)". -/
theorem retry_negative_never_attempts_witness :
    ∃ out, (WithRetry failing (-1) second (10 * second)).Send quiet ctx0 testMsg 1 = some out ∧
      out.trace = [] ∧
      out.err = some (GoError.errorString "failed after -1 retries: %!w(<nil>)") := by
  obtain ⟨out, h1, h2, _, _, h5, _⟩ :=
    retry_negative_never_attempts failing (-1) second (10 * second) quiet ctx0 testMsg 0
      (by decide)
  refine ⟨out, h1, h2, ?_⟩
  rw [h5]
  decide

end Notif
